import Mathlib

/-!
# ARIA emergent linguistic system — a shallow embedding

This file embeds the core of the ARIA text-learning engine
(`ariaCorrelator.js` and `ariaGenerator.js`) into Lean 4 and proves
properties of the embedded definitions.

Modelling conventions:
* JavaScript floating-point numbers are modelled by exact rationals `ℚ`;
  every arithmetic constant of the source (`0.02`, `0.15`, `0.30`, …) is
  the corresponding rational.
* The Supabase store is modelled by an explicit state value (`SysState`)
  holding the rows of the tables; every `await supabase...` call becomes a
  pure read or a functional update of that state.
* `Math.random()` is modelled by an explicit stream of rationals
  (`List ℚ`); an exhausted stream yields `0`.  Each call site pops one
  value, in the evaluation order of the source.
* Wall-clock concerns kept out of the logical model (and called out in
  comments where they occur): the 5-second global-stats cache and the
  24-hour token-score aging hook of `processDecay`, both invisible to the
  properties treated here.
-/

/- Batteries marks the arithmetic core of `Rat` `@[irreducible]`, which
blocks `decide` on closed rational facts; re-enable unfolding for this
file so concrete evaluations of the embedded code go through the kernel. -/
attribute [local semireducible] Rat.add Rat.mul Rat.sub Rat.inv

namespace Aria

/-- The five behavioural categories of a token
(`stable / transition / modifier / structural / unclassified`). -/
inductive Cat where
  | stable
  | transition
  | modifier
  | structural
  | unclassified
deriving DecidableEq, Repr

/-- The four memory tiers of a pair (`short / medium / long / decay`). -/
inductive Tier where
  | short
  | medium
  | long
  | decay
deriving DecidableEq, Repr

/-! ## Configuration constants (`CONFIG` in `ariaCorrelator.js`) -/

/-- `CONFIG.THRESHOLDS.SHORT_MAX = 0.30`. -/
def SHORT_MAX : ℚ := 30 / 100

/-- `CONFIG.THRESHOLDS.MEDIUM_MAX = 0.80`. -/
def MEDIUM_MAX : ℚ := 80 / 100

/-- `CONFIG.THRESHOLDS.DECAY_MIN = 0.01`. -/
def DECAY_MIN : ℚ := 1 / 100

/-- `CONFIG.REINFORCEMENT.base = 0.02`. -/
def REINFORCEMENT_BASE : ℚ := 2 / 100

/-- `CONFIG.REINFORCEMENT.maxScore = 1.0`. -/
def REINFORCEMENT_MAX : ℚ := 1

/-- `CONFIG.ADJACENCY_WINDOW = 2`. -/
def ADJACENCY_WINDOW : ℕ := 2

/-- `CONFIG.MIN_OCCURRENCES_FOR_CATEGORY = 2`. -/
def MIN_OCCURRENCES_FOR_CATEGORY : ℕ := 2

/-- `CONFIG.CATEGORY_THRESHOLD = 0.15`. -/
def CATEGORY_THRESHOLD : ℚ := 15 / 100

/-- `CONFIG.DECAY[tier].interval`.  The `decay` tier has no entry in the
source table; reads go through `CONFIG.DECAY[pair.tier] || CONFIG.DECAY.short`,
so the `decay` row falls back to the `short` configuration here. -/
def decayIntervalFor : Tier → ℕ
  | .short => 50
  | .medium => 200
  | .long => 1000
  | .decay => 50

/-- `CONFIG.DECAY[tier].rate`, with the same `|| CONFIG.DECAY.short`
fallback as `decayIntervalFor`. -/
def decayRateFor : Tier → ℚ
  | .short => 15 / 100
  | .medium => 5 / 100
  | .long => 1 / 100
  | .decay => 15 / 100

/-- `CONFIG.PROMOTION_MODIFIERS` — promotion speed modifier by category. -/
def promotionModifier : Cat → ℚ
  | .stable => 15 / 10
  | .structural => 6 / 10
  | .transition => 1
  | .modifier => 1
  | .unclassified => 8 / 10

/-- `clamp(value, 0, 1)` from the source: `Math.max(0, Math.min(1, value))`. -/
def clamp01 (x : ℚ) : ℚ := max 0 (min 1 x)

/-! ## String primitives

Character-list implementations of the JavaScript string operations the
code uses, written so that they evaluate by structural recursion. -/

/-- `toLowerCase()`, written over the character list so that it evaluates
by plain structural recursion. -/
def strLower (s : String) : String := String.mk (s.data.map Char.toLower)

/-- `s.length` over the character list. -/
def strLength (s : String) : ℕ := s.data.length

/-- Lexicographic (code-unit) string order, as JavaScript's default
string comparison; written over character lists so that it evaluates. -/
def charListLe : List Char → List Char → Bool
  | [], _ => true
  | _ :: _, [] => false
  | a :: as, b :: bs => if a = b then charListLe as bs else decide (a < b)

/-- `a <= b` on strings (JavaScript sort order). -/
def strLe (a b : String) : Bool := charListLe a.data b.data

/-- The maximal whitespace-separated words of a character list, in order
(empty fragments dropped). -/
def wordsAux : List Char → List Char → List String
  | [], acc => if acc.isEmpty then [] else [String.mk acc.reverse]
  | c :: rest, acc =>
    if c.isWhitespace then
      if acc.isEmpty then wordsAux rest []
      else String.mk acc.reverse :: wordsAux rest []
    else wordsAux rest (c :: acc)

/-- Split a string on whitespace, dropping empty fragments — the combined
effect of `.replace(/\s+/g, ' ').trim().split(' ')` (and of
`.split(/\s+/)` up to empty fragments, which every caller filters out). -/
def wordsOf (s : String) : List String := wordsAux s.data []

/-- JavaScript `s.split(' ')`: split on the single space character,
keeping empty fragments (`"".split(' ')` is `[""]`). -/
def splitSpaceAux : List Char → List Char → List String
  | [], acc => [String.mk acc.reverse]
  | c :: rest, acc =>
    if c = ' ' then String.mk acc.reverse :: splitSpaceAux rest []
    else splitSpaceAux rest (c :: acc)

/-- `s.split(' ')`. -/
def splitOnSpace (s : String) : List String := splitSpaceAux s.data []


/-! ## Category scoring (`calculate*Score`, `assignCategory`) -/

/-- The global normalisation record (`aria_global_stats` row). -/
structure GlobalStats where
  total_contexts_seen : ℕ
  total_adj_windows : ℕ
  max_positional_variance : ℚ
  total_tokens_seen : ℕ
deriving DecidableEq, Repr

/-- Per-token statistics record (`aria_token_stats` row). -/
structure TokenStat where
  token : String
  total_occurrences : ℕ
  context_count : ℕ
  unique_adjacency_count : ℕ
  positional_variance : ℚ
  bridge_count : ℕ
  temporal_adj_count : ℕ
  adjacent_to_stable : ℕ
  contrast_pair_count : ℕ
  standalone_count : ℕ
  stability_score : ℚ
  transition_score : ℚ
  dependency_score : ℚ
  structural_score : ℚ
  category : Cat
  pending_category : Option Cat
  pending_count : ℕ
  last_message_index : Option ℕ
deriving DecidableEq, Repr

/-- The fresh record built by `getOrCreateTokenStats` (all counters zero,
category `unclassified`; `pending_*` and `last_message_index` are absent
columns read back as null / `|| 0`). -/
def freshTokenStat (token : String) : TokenStat where
  token := token
  total_occurrences := 0
  context_count := 0
  unique_adjacency_count := 0
  positional_variance := 0
  bridge_count := 0
  temporal_adj_count := 0
  adjacent_to_stable := 0
  contrast_pair_count := 0
  standalone_count := 0
  stability_score := 0
  transition_score := 0
  dependency_score := 0
  structural_score := 0
  category := .unclassified
  pending_category := none
  pending_count := 0
  last_message_index := none

/-- `calculateStabilityScore`. -/
def calculateStabilityScore (s : TokenStat) (g : GlobalStats) : ℚ :=
  let contextRatio := (s.context_count : ℚ) / max 1 (g.total_contexts_seen : ℚ)
  let adjRatio := (s.unique_adjacency_count : ℚ) / max 1 (g.total_adj_windows : ℚ)
  let varianceRatio := s.positional_variance / max 1 g.max_positional_variance
  clamp01 (contextRatio + adjRatio - varianceRatio)

/-- `calculateTransitionScore`. -/
def calculateTransitionScore (s : TokenStat) (g : GlobalStats) : ℚ :=
  let bridgeRatio := (s.bridge_count : ℚ) / max 1 (s.total_occurrences : ℚ)
  let temporalRatio := (s.temporal_adj_count : ℚ) / max 1 (s.total_occurrences : ℚ)
  let varianceRatio := s.positional_variance / max 1 g.max_positional_variance
  clamp01 (bridgeRatio + temporalRatio + varianceRatio)

/-- `calculateDependencyScore`. -/
def calculateDependencyScore (s : TokenStat) : ℚ :=
  let stableRatio := (s.adjacent_to_stable : ℚ) / max 1 (s.total_occurrences : ℚ)
  let contrastRatio := (s.contrast_pair_count : ℚ) / max 1 (s.total_occurrences : ℚ)
  let standaloneRatio := (s.standalone_count : ℚ) / max 1 (s.total_occurrences : ℚ)
  clamp01 (stableRatio + contrastRatio - standaloneRatio)

/-- `calculateStructuralScore`. -/
def calculateStructuralScore (s : TokenStat) (g : GlobalStats) : ℚ :=
  let occurrenceRatio := (s.total_occurrences : ℚ) / max 1 (g.total_contexts_seen : ℚ)
  let temporalRatio := (s.temporal_adj_count : ℚ) / max 1 (s.total_occurrences : ℚ)
  let adjRatio := (s.unique_adjacency_count : ℚ) / max 1 (g.total_adj_windows : ℚ)
  let standaloneRatio := (s.standalone_count : ℚ) / max 1 (s.total_occurrences : ℚ)
  let varianceRatio := s.positional_variance / max 1 g.max_positional_variance
  clamp01 (occurrenceRatio + temporalRatio - adjRatio - standaloneRatio - varianceRatio)

/-- `assignCategory(stats)` — translated clause by clause from the source:
`Math.max` over the four scores, then the ordered equality checks
(each also re-testing `> CONFIG.CATEGORY_THRESHOLD`), with a final
`return 'unclassified'`. -/
def assignCategory (s : TokenStat) : Cat :=
  if s.total_occurrences < MIN_OCCURRENCES_FOR_CATEGORY then .unclassified
  else
    let sStable := s.stability_score
    let sTransition := s.transition_score
    let sModifier := s.dependency_score
    let sStructural := s.structural_score
    let maxScore := max (max (max sStable sTransition) sModifier) sStructural
    if maxScore ≤ CATEGORY_THRESHOLD then .unclassified
    else if sStable = maxScore ∧ CATEGORY_THRESHOLD < sStable then .stable
    else if sTransition = maxScore ∧ CATEGORY_THRESHOLD < sTransition then .transition
    else if sModifier = maxScore ∧ CATEGORY_THRESHOLD < sModifier then .modifier
    else if sStructural = maxScore ∧ CATEGORY_THRESHOLD < sStructural then .structural
    else .unclassified

/-- The category candidate as worded by the specification (claim C4):
`unclassified` when `total_occurrences < 2` or when the maximum `M` of the
four scores is `≤ 0.15`; otherwise the score name owning `M`, ties broken
by the priority stable > transition > modifier > structural, with the
modifier category named from the dependency score.  This definition follows
the spec's words; `assignCategory` follows the source. -/
def assignCategorySpec (s : TokenStat) : Cat :=
  if s.total_occurrences < 2 then .unclassified
  else
    let M := max (max (max s.stability_score s.transition_score) s.dependency_score)
      s.structural_score
    if M ≤ 15 / 100 then .unclassified
    else if s.stability_score = M then .stable
    else if s.transition_score = M then .transition
    else if s.dependency_score = M then .modifier
    else .structural

/-! ## Category inertia (`calculateScoresAndCategories`, inertia block) -/

/-- The three inertia-relevant fields of a token record. -/
structure InertiaState where
  category : Cat
  pending_category : Option Cat
  pending_count : ℕ
deriving DecidableEq, Repr

/-- One message tick of the category-inertia protocol, exactly the block
guarded by `if (newCategory !== stats.category)` in
`calculateScoresAndCategories`: a candidate equal to the current category
clears the pending state; a candidate equal to the pending category
increments the count and commits at 3; any other candidate becomes the new
pending category with count 1. -/
def inertiaStep (cand : Cat) (s : InertiaState) : InertiaState :=
  if cand ≠ s.category then
    if some cand = s.pending_category then
      let c := s.pending_count + 1
      if 3 ≤ c then { category := cand, pending_category := none, pending_count := 0 }
      else { category := s.category, pending_category := s.pending_category, pending_count := c }
    else
      { category := s.category, pending_category := some cand, pending_count := 1 }
  else
    { category := s.category, pending_category := none, pending_count := 0 }

/-! ## Pairs (`processWordPairs`, `processDecay`) -/

/-- A word-pair record (`aria_word_pairs` row). -/
structure PairRec where
  pattern_key : String
  token_a : String
  token_b : String
  frequency : ℕ
  strength : ℚ
  category_pattern : String
  reinforcement_count : ℕ
  decay_count : ℕ
  tier : Tier
  decay_at_message : ℕ
  last_seen_message_index : ℕ
deriving DecidableEq, Repr

/-- `getTierForScore(score)`. -/
def getTierForScore (score : ℚ) : Tier :=
  if MEDIUM_MAX ≤ score then .long
  else if SHORT_MAX ≤ score then .medium
  else .short

/-- `generatePatternKey(word1, word2)` — the two lowercased tokens joined
by `_` in sorted order. -/
def generatePatternKey (word1 word2 : String) : String :=
  let a := strLower word1
  let b := strLower word2
  if strLe a b then a ++ "_" ++ b else b ++ "_" ++ a

/-- String form of a category, as stored in `category_pattern`. -/
def catName : Cat → String
  | .stable => "stable"
  | .transition => "transition"
  | .modifier => "modifier"
  | .structural => "structural"
  | .unclassified => "unclassified"

/-- The fresh pair inserted by `processWordPairs` when no record exists for
the pattern key: `strength = 0.02`, tier `short`, due for decay 50 messages
later. -/
def freshPair (tokenA tokenB : String) (catA catB : Cat) (messageIndex : ℕ) : PairRec :=
  let a := if strLe tokenA tokenB then tokenA else tokenB
  let b := if strLe tokenA tokenB then tokenB else tokenA
  { pattern_key := generatePatternKey tokenA tokenB
    token_a := a
    token_b := b
    frequency := 1
    strength := REINFORCEMENT_BASE
    category_pattern := catName catA ++ "->" ++ catName catB
    reinforcement_count := 1
    decay_count := 0
    tier := .short
    decay_at_message := messageIndex + decayIntervalFor .short
    last_seen_message_index := messageIndex }

/-- The reinforcement update of `processWordPairs` for an existing pair:
`add = 0.02 × max(modifier_A, modifier_B)`, strength capped at 1, tier
rederived by `getTierForScore`, decay rescheduled for the new tier. -/
def reinforcePair (p : PairRec) (catA catB : Cat) (messageIndex : ℕ) : PairRec :=
  let categoryModifier := max (promotionModifier catA) (promotionModifier catB)
  let addStrength := REINFORCEMENT_BASE * categoryModifier
  let newStrength := min REINFORCEMENT_MAX (p.strength + addStrength)
  let newTier := getTierForScore newStrength
  { p with
    frequency := p.frequency + 1
    strength := newStrength
    category_pattern := catName catA ++ "->" ++ catName catB
    reinforcement_count := p.reinforcement_count + 1
    tier := newTier
    decay_at_message := messageIndex + decayIntervalFor newTier
    last_seen_message_index := messageIndex }

/-- The per-pair decay update of `processDecay`, applied to a pair that is
due (`tier ≠ decay` and `decay_at_message ≤ currentMessageIndex`):
multiply strength by `1 − rate`, retire to the `decay` tier when the result
drops below `DECAY_MIN`, otherwise rederive the tier and reschedule. -/
def decayPairStep (p : PairRec) (currentMessageIndex : ℕ) : PairRec :=
  let newStrength := p.strength * (1 - decayRateFor p.tier)
  if newStrength < DECAY_MIN then
    { p with tier := .decay, strength := newStrength, decay_count := p.decay_count + 1 }
  else
    let newTier := getTierForScore newStrength
    { p with
      strength := newStrength
      tier := newTier
      decay_count := p.decay_count + 1
      decay_at_message := currentMessageIndex + decayIntervalFor newTier }

/-- The operations that touch one pair record after its creation: a
reinforcement by `processWordPairs` (with the two tokens' fresh categories)
at some message index, or a pass of the decay engine at some message index.
The decay engine's row filter (`tier ≠ decay`, `decay_at_message ≤ index`)
is part of the event application. -/
inductive PairEvent where
  | reinforce (catA catB : Cat) (messageIndex : ℕ)
  | decayTick (messageIndex : ℕ)
deriving DecidableEq, Repr

/-- Apply one `PairEvent` to a pair record. -/
def applyPairEvent (e : PairEvent) (p : PairRec) : PairRec :=
  match e with
  | .reinforce catA catB m => reinforcePair p catA catB m
  | .decayTick m =>
    if p.tier ≠ .decay ∧ p.decay_at_message ≤ m then decayPairStep p m else p

/-- The pair record obtained from a fresh `strength = 0.02` pair after an
arbitrary interleaving of reinforcement and decay events. -/
def runPairEvents (tokenA tokenB : String) (catA catB : Cat) (createdAt : ℕ)
    (es : List PairEvent) : PairRec :=
  es.foldl (fun p e => applyPairEvent e p) (freshPair tokenA tokenB catA catB createdAt)

/-! ## Tokenizer (`tokenizeMessage`) -/

/-- A character matched by the JavaScript `\w` class (ASCII letters,
digits, underscore). -/
def isWordChar (c : Char) : Bool := c.isAlphanum || c = '_'

/-- A character the tokenizer keeps: `[^\w\s'-]` is replaced by a space,
so word characters, apostrophe, hyphen and whitespace survive. -/
def keptChar (c : Char) : Bool :=
  isWordChar c || c = '\'' || c = '-' || c.isWhitespace

/-- `tokenizeMessage(text)`: lowercase, replace every character outside
`[\w\s'-]` by a space, collapse whitespace, trim, split on spaces, and
keep only tokens of length ≥ 2.  (Collapse + trim + split-on-space equals
split-on-whitespace with empty fragments dropped, which is `wordsOf`.) -/
def tokenizeMessage (text : String) : List String :=
  let cleaned := String.mk ((strLower text).data.map (fun c => if keptChar c then c else ' '))
  (wordsOf cleaned).filter (fun w => 2 ≤ strLength w)

/-! ## Fixed word tables (`TEMPORAL_MARKERS`, `CONTRAST_PAIRS`) -/

/-- The fixed temporal-marker set. -/
def TEMPORAL_MARKERS : List String :=
  ["then", "now", "before", "after", "when", "while", "during", "until",
   "since", "already", "soon", "later", "earlier", "yesterday", "today",
   "tomorrow", "always", "never", "once", "first", "last", "next",
   "finally", "eventually", "immediately", "suddenly", "gradually",
   "recently", "formerly", "meanwhile"]

/-- The fixed 20-entry contrast-pair table, in source order. -/
def CONTRAST_PAIRS : List (String × String) :=
  [("good", "bad"), ("big", "small"), ("hot", "cold"), ("fast", "slow"),
   ("old", "new"), ("high", "low"), ("light", "dark"), ("happy", "sad"),
   ("strong", "weak"), ("hard", "soft"), ("loud", "quiet"), ("clean", "dirty"),
   ("rich", "poor"), ("safe", "dangerous"), ("full", "empty"), ("long", "short"),
   ("thick", "thin"), ("wide", "narrow"), ("deep", "shallow"), ("young", "old")]

/-- `Map.set` on an association list: overwrite the entry if the key is
present, append otherwise (JavaScript `Map` semantics, insertion order). -/
def mapSet (m : List (String × String)) (k v : String) : List (String × String) :=
  if m.any (fun kv => kv.1 = k) then m.map (fun kv => if kv.1 = k then (k, v) else kv)
  else m ++ [(k, v)]

/-- `CONTRAST_LOOKUP`, built by inserting both directions of every contrast
pair in order (so a later pair overwrites an earlier entry for the same
word, as happens for `old`). -/
def CONTRAST_LOOKUP : List (String × String) :=
  CONTRAST_PAIRS.foldl (fun m ab => mapSet (mapSet m ab.1 ab.2) ab.2 ab.1) []

/-- `CONTRAST_LOOKUP.get(t)`. -/
def contrastPartner (t : String) : Option String :=
  (CONTRAST_LOOKUP.find? (fun kv => kv.1 = t)).map (fun kv => kv.2)

/-! ## Store state

One value holding the rows of the Supabase tables the core touches. -/

/-- A row of `aria_token_positions`. -/
structure PosRec where
  token : String
  position : ℕ
  message_index : ℕ
deriving DecidableEq, Repr

/-- A row of `aria_purgatory` (legacy word store). -/
structure PurgRec where
  word : String
  position : ℕ
  message_id : String
  message_index : ℕ
  user_id : String
deriving DecidableEq, Repr

/-- The store state: message counter, token statistics, position samples,
word pairs, the global-stats singleton, and the legacy purgatory rows. -/
structure SysState where
  counter : ℕ
  tokenStats : List TokenStat
  positions : List PosRec
  pairs : List PairRec
  globalStats : GlobalStats
  purgatory : List PurgRec
deriving DecidableEq, Repr

/-- Read of `aria_token_stats` by token. -/
def getTokenStat? (st : SysState) (token : String) : Option TokenStat :=
  st.tokenStats.find? (fun s => s.token = token)

/-- `getOrCreateTokenStats(token)`: return the stored row, inserting a
fresh all-zero record when none exists. -/
def getOrCreateTokenStats (st : SysState) (token : String) : TokenStat × SysState :=
  match getTokenStat? st token with
  | some s => (s, st)
  | none =>
    let s := freshTokenStat token
    (s, { st with tokenStats := st.tokenStats ++ [s] })

/-- `updateTokenStats`: overwrite the row with the given token key. -/
def putTokenStat (st : SysState) (s : TokenStat) : SysState :=
  { st with tokenStats := st.tokenStats.map (fun t => if t.token = s.token then s else t) }

/-- Pair lookup by pattern key. -/
def findPair? (st : SysState) (key : String) : Option PairRec :=
  st.pairs.find? (fun p => p.pattern_key = key)

/-- Pair update by pattern key. -/
def putPair (st : SysState) (key : String) (p : PairRec) : SysState :=
  { st with pairs := st.pairs.map (fun q => if q.pattern_key = key then p else q) }

/-! ## Step 1: token statistics (`processTokenStatistics`) -/

/-- The ±2 adjacency window around index `i` in a message of `n` tokens:
indices `max(0, i−2) .. min(n−1, i+2)` without `i` itself. -/
def windowIdx (n i : ℕ) : List ℕ :=
  (List.range n).filter (fun j => j ≠ i ∧ i ≤ j + ADJACENCY_WINDOW ∧ j ≤ i + ADJACENCY_WINDOW)

/-- The distinct neighbour tokens of occurrence `i` (the `neighbors` set). -/
def neighborsOf (tokens : List String) (i : ℕ) : List String :=
  ((windowIdx tokens.length i).map (fun j => tokens.getD j "")).eraseDups

/-- Indices at which token `t` occurs in the message. -/
def occurrenceIdx (tokens : List String) (t : String) : List ℕ :=
  (List.range tokens.length).filter (fun i => tokens.getD i "" = t)

/-- The per-token, per-message counter increments accumulated by the
occurrence loop of `processTokenStatistics`, computed from the snapshot
stats read in the first pass (`updates.*_add` in the source). -/
structure TokenAdds where
  total_occurrences_add : ℕ
  context_count_add : ℕ
  bridge_count_add : ℕ
  temporal_adj_count_add : ℕ
  adjacent_to_stable_add : ℕ
  contrast_pair_count_add : ℕ
  standalone_count_add : ℕ
  adjSetSize : ℕ
deriving DecidableEq, Repr

/-- Compute the increments of one token for one message.  Each one-shot
counter (`context`, `temporal`, `adjacent-to-stable`, `contrast`,
`standalone`) is capped at 1 per message exactly as the `=== 0` guards in
the source cap it; `total_occurrences` and `bridge_count` count every
(interior) occurrence. -/
def tokenAddsFor (tokens : List String) (tokenSet : List String) (stableSet : List String)
    (messageIndex : ℕ) (isStandalone : Bool) (snap : TokenStat) (t : String) : TokenAdds :=
  let n := tokens.length
  let occ := occurrenceIdx tokens t
  { total_occurrences_add := occ.length
    context_count_add :=
      if snap.last_message_index ≠ some messageIndex ∧ occ ≠ [] then 1 else 0
    bridge_count_add :=
      (occ.filter (fun i =>
        0 < i ∧ i < n - 1 ∧ stableSet.contains (tokens.getD (i - 1) "") ∧
          stableSet.contains (tokens.getD (i + 1) ""))).length
    temporal_adj_count_add :=
      if occ.any (fun i => (neighborsOf tokens i).any (fun w => TEMPORAL_MARKERS.contains w))
      then 1 else 0
    adjacent_to_stable_add :=
      if occ.any (fun i => (neighborsOf tokens i).any (fun w => stableSet.contains w))
      then 1 else 0
    contrast_pair_count_add :=
      match contrastPartner t with
      | some partner => if occ ≠ [] ∧ tokenSet.contains partner then 1 else 0
      | none => 0
    standalone_count_add := if isStandalone then 1 else 0
    adjSetSize := ((occ.map (fun i => neighborsOf tokens i)).flatten).eraseDups.length }

/-- The batched per-token write at the end of `processTokenStatistics`:
add the increments to the snapshot values, take the high-water mark for
`unique_adjacency_count`, stamp `last_message_index`.  Scores, category and
pending fields are not columns of this update and stay as stored. -/
def applyTokenAdds (snap : TokenStat) (a : TokenAdds) (messageIndex : ℕ) : TokenStat :=
  { snap with
    total_occurrences := snap.total_occurrences + a.total_occurrences_add
    context_count := snap.context_count + a.context_count_add
    unique_adjacency_count := max snap.unique_adjacency_count a.adjSetSize
    bridge_count := snap.bridge_count + a.bridge_count_add
    temporal_adj_count := snap.temporal_adj_count + a.temporal_adj_count_add
    adjacent_to_stable := snap.adjacent_to_stable + a.adjacent_to_stable_add
    contrast_pair_count := snap.contrast_pair_count + a.contrast_pair_count_add
    standalone_count := snap.standalone_count + a.standalone_count_add
    last_message_index := some messageIndex }

/-- Step 1 of a message tick, `processTokenStatistics(tokens, messageIndex,
isStandalone)`: create-on-read every token's stats (snapshotting them and
the message's stable-token set), append a position sample per occurrence,
apply the batched per-token updates, and bump the global stats
(`+1` context, `+max(0, n−1)` adjacency windows, `+n` tokens seen).
Returns the number of distinct tokens processed. -/
def processTokenStatistics (tokens : List String) (messageIndex : ℕ) (isStandalone : Bool)
    (st : SysState) : ℕ × SysState :=
  let tokenSet := tokens.eraseDups
  let snapStep := fun (acc : List (String × TokenStat) × SysState) (t : String) =>
    let r := getOrCreateTokenStats acc.2 t
    (acc.1 ++ [(t, r.1)], r.2)
  let snapped := tokenSet.foldl snapStep ([], st)
  let snap := snapped.1
  let st := snapped.2
  let stableSet := (snap.filter (fun ts => ts.2.category = Cat.stable)).map (fun ts => ts.1)
  let newPositions := (List.range tokens.length).map
    (fun i => PosRec.mk (tokens.getD i "") i messageIndex)
  let st := { st with positions := st.positions ++ newPositions }
  let writeStep := fun (st' : SysState) (ts : String × TokenStat) =>
    let adds := tokenAddsFor tokens tokenSet stableSet messageIndex isStandalone ts.2 ts.1
    putTokenStat st' (applyTokenAdds ts.2 adds messageIndex)
  let st := snap.foldl writeStep st
  let g := st.globalStats
  let st := { st with globalStats :=
    { g with
      total_contexts_seen := g.total_contexts_seen + 1
      total_adj_windows := g.total_adj_windows + (tokens.length - 1)
      total_tokens_seen := g.total_tokens_seen + tokens.length } }
  (tokenSet.length, st)

/-! ## Step 2: scores and categories (`calculateScoresAndCategories`) -/

/-- `calculatePositionalVariance(token)`: population variance of the most
recent (at most 100) position samples of the token; `0` below two samples.
The source reads with `limit(100)`; the samples meant (and specified) are
the most recent ones, which is what this takes. -/
def calculatePositionalVariance (st : SysState) (token : String) : ℚ :=
  let allVals := (st.positions.filter (fun p => p.token = token)).map (fun p => p.position)
  let vals := allVals.drop (allVals.length - 100)
  if vals.length < 2 then 0
  else
    let n : ℚ := vals.length
    let mean := ((vals.map (fun v => (v : ℚ))).sum) / n
    ((vals.map (fun v => ((v : ℚ) - mean) ^ 2)).sum) / n

/-- Step 2 of a message tick, `calculateScoresAndCategories(tokens)`:
first pass computes every token's variance and raises the global
`max_positional_variance`; the second pass recomputes the four scores with
the updated maximum, derives the category candidate and runs it through
the inertia protocol, writing the row back.  Returns the number of tokens
whose (non-`unclassified`) category changed.  The source's 5-second
global-stats cache is a wall-clock concern not modelled here: reads see
the current store. -/
def calculateScoresAndCategories (tokens : List String) (st : SysState) : ℕ × SysState :=
  let tokenSet := tokens.eraseDups
  let varianceMap := tokenSet.map (fun t => (t, calculatePositionalVariance st t))
  let g0 := st.globalStats
  let maxVarianceFound :=
    varianceMap.foldl (fun m tv => max m tv.2) g0.max_positional_variance
  let g := { g0 with max_positional_variance := maxVarianceFound }
  let st := { st with globalStats := g }
  let scoreStep := fun (acc : ℕ × SysState) (t : String) =>
    let r := getOrCreateTokenStats acc.2 t
    let s0 := r.1
    let st1 := r.2
    let variance := ((varianceMap.find? (fun tv => tv.1 = t)).map (fun tv => tv.2)).getD 0
    let s1 := { s0 with positional_variance := variance }
    let stabilityScore := calculateStabilityScore s1 g
    let transitionScore := calculateTransitionScore s1 g
    let dependencyScore := calculateDependencyScore s1
    let structuralScore := calculateStructuralScore s1 g
    let s2 := { s1 with
      stability_score := stabilityScore
      transition_score := transitionScore
      dependency_score := dependencyScore
      structural_score := structuralScore }
    let newCategory := assignCategory s2
    let inert := inertiaStep newCategory
      { category := s0.category, pending_category := s0.pending_category,
        pending_count := s0.pending_count }
    let s3 := { s2 with
      category := inert.category
      pending_category := inert.pending_category
      pending_count := inert.pending_count }
    let st2 := putTokenStat st1 s3
    let inc := if inert.category ≠ Cat.unclassified ∧ inert.category ≠ s0.category
      then 1 else 0
    (acc.1 + inc, st2)
  tokenSet.foldl scoreStep (0, st)

/-! ## Step 3: pairs (`processWordPairs`) -/

/-- The counters returned by `processWordPairs`. -/
structure PairCounts where
  newPairs : ℕ
  reinforced : ℕ
  promoted : ℕ
deriving DecidableEq, Repr

/-- One iteration of the adjacent-pair loop of `processWordPairs` at
index `i`: skip equal tokens, re-read both tokens' current categories,
and either reinforce the existing record for the pattern key (counting a
promotion when the tier changed) or insert a fresh `strength = 0.02`,
tier-`short` pair. -/
def processPairAt (tokens : List String) (messageIndex : ℕ)
    (acc : PairCounts × SysState) (i : ℕ) : PairCounts × SysState :=
  let tokenA := tokens.getD i ""
  let tokenB := tokens.getD (i + 1) ""
  if tokenA = tokenB then acc
  else
    let patternKey := generatePatternKey tokenA tokenB
    let rA := getOrCreateTokenStats acc.2 tokenA
    let rB := getOrCreateTokenStats rA.2 tokenB
    let st1 := rB.2
    match findPair? st1 patternKey with
    | some existing =>
      let p := reinforcePair existing rA.1.category rB.1.category messageIndex
      let promotedInc := if p.tier ≠ existing.tier then 1 else 0
      (⟨acc.1.newPairs, acc.1.reinforced + 1, acc.1.promoted + promotedInc⟩,
        putPair st1 patternKey p)
    | none =>
      let p := freshPair tokenA tokenB rA.1.category rB.1.category messageIndex
      (⟨acc.1.newPairs + 1, acc.1.reinforced, acc.1.promoted⟩,
        { st1 with pairs := st1.pairs ++ [p] })

/-- Step 3 of a message tick, `processWordPairs(tokens, messageIndex)`:
the adjacent-pair loop over indices `0 .. n−2`. -/
def processWordPairs (tokens : List String) (messageIndex : ℕ) (st : SysState) :
    PairCounts × SysState :=
  if tokens.length < 2 then (⟨0, 0, 0⟩, st)
  else
    (List.range (tokens.length - 1)).foldl (processPairAt tokens messageIndex)
      (⟨0, 0, 0⟩, st)

/-! ## Step 4: decay (`processDecay`) -/

/-- Whether a pair is due for decay at the given message index (the row
filter `decay_at_message ≤ index`, `tier ≠ decay` of `processDecay`). -/
def dueForDecay (p : PairRec) (currentMessageIndex : ℕ) : Bool :=
  p.tier ≠ Tier.decay ∧ p.decay_at_message ≤ currentMessageIndex

/-- Step 4 of a message tick, `processDecay(currentMessageIndex)`: every
due pair takes one `decayPairStep`; the result counts pairs that stayed
(`decayed`) and pairs retired to the `decay` tier (`removed`).  The
24-hour token-score aging hook of the source is keyed on wall-clock
`updated_at` timestamps and is outside this logical-time model. -/
def processDecay (currentMessageIndex : ℕ) (st : SysState) : (ℕ × ℕ) × SysState :=
  let removed := (st.pairs.filter (fun p =>
    dueForDecay p currentMessageIndex ∧
      p.strength * (1 - decayRateFor p.tier) < DECAY_MIN)).length
  let decayed := (st.pairs.filter (fun p =>
    dueForDecay p currentMessageIndex ∧
      ¬ (p.strength * (1 - decayRateFor p.tier) < DECAY_MIN))).length
  let pairs := st.pairs.map (fun p => applyPairEvent (.decayTick currentMessageIndex) p)
  ((decayed, removed), { st with pairs := pairs })

/-! ## `processMessage` -/

/-- The structured report returned by `processMessage`; fields absent on a
short-circuit path are `none`. -/
structure ProcessReport where
  processed : Bool
  messageIndex : Option ℕ
  tokensProcessed : Option ℕ
  categorized : Option ℕ
  newPairs : Option ℕ
  reinforced : Option ℕ
  promoted : Option ℕ
  decayed : Option ℕ
  removed : Option ℕ
  reason : Option String
deriving DecidableEq, Repr

/-- JavaScript falsiness of an optional string argument (`!userId`):
absent or empty. -/
def jsFalsyStr : Option String → Bool
  | none => true
  | some s => s = ""

/-- `wordsToPurgatory`: append one legacy purgatory row per token. -/
def wordsToPurgatory (tokens : List String) (messageId : String) (userId : String)
    (messageIndex : ℕ) (st : SysState) : SysState :=
  let rows := (List.range tokens.length).map
    (fun i => PurgRec.mk (tokens.getD i "") i messageId messageIndex userId)
  { st with purgatory := st.purgatory ++ rows }

/-- `processMessage(messageText, messageId, userId)`: reject falsy input
before touching any state; otherwise advance the counter, tokenize,
short-circuit on an empty token list, and run the four pipeline steps in
order. -/
def processMessage (messageText : String) (messageId : String) (userId : Option String)
    (st : SysState) : ProcessReport × SysState :=
  if messageText = "" ∨ jsFalsyStr userId then
    ({ processed := false, messageIndex := none, tokensProcessed := none,
       categorized := none, newPairs := none, reinforced := none, promoted := none,
       decayed := none, removed := none,
       reason := some "Empty message or no user" }, st)
  else
    let messageIndex := st.counter + 1
    let st := { st with counter := messageIndex }
    let tokens := tokenizeMessage messageText
    if tokens = [] then
      ({ processed := true, messageIndex := some messageIndex, tokensProcessed := none,
         categorized := none, newPairs := none, reinforced := none, promoted := none,
         decayed := none, removed := none, reason := some "No tokens" }, st)
    else
      let isStandalone := tokens.length = 1
      let st := wordsToPurgatory tokens messageId (userId.getD "") messageIndex st
      let r1 := processTokenStatistics tokens messageIndex isStandalone st
      let r2 := calculateScoresAndCategories tokens r1.2
      let r3 := processWordPairs tokens messageIndex r2.2
      let r4 := processDecay messageIndex r3.2
      ({ processed := true, messageIndex := some messageIndex,
         tokensProcessed := some r1.1, categorized := some r2.1,
         newPairs := some r3.1.newPairs, reinforced := some r3.1.reinforced,
         promoted := some r3.1.promoted, decayed := some r4.1.1,
         removed := some r4.1.2, reason := none }, r4.2)

/-! ## Response generator (`ariaGenerator.js`)

`Math.random()` calls are modelled by popping an explicit stream. -/

/-- Pop one `Math.random()` value; an exhausted stream yields `0`. -/
def popRand : List ℚ → ℚ × List ℚ
  | [] => (0, [])
  | x :: xs => (x, xs)

/-- `GENERATION_CONFIG.maxWords = 12`. -/
def GEN_maxWords : ℕ := 12

/-- `GENERATION_CONFIG.minWords = 3`. -/
def GEN_minWords : ℕ := 3

/-- `GENERATION_CONFIG.strengthThreshold = 0.01`. -/
def GEN_strengthThreshold : ℚ := 1 / 100

/-- `GENERATION_CONFIG.randomnessFactor = 0.25`. -/
def GEN_randomnessFactor : ℚ := 25 / 100

/-- `GENERATION_CONFIG.categoryTransitions`. -/
def categoryTransitions : Cat → List Cat
  | .stable => [.modifier, .transition, .structural]
  | .modifier => [.stable, .structural]
  | .transition => [.stable, .modifier, .structural]
  | .structural => [.stable, .modifier, .transition]
  | .unclassified => [.stable, .modifier, .transition, .structural]

/-- `GENERATION_CONFIG.startingWeights`. -/
def startingWeight : Cat → ℚ
  | .stable => 15 / 10
  | .transition => 1
  | .modifier => 7 / 10
  | .structural => 3 / 10
  | .unclassified => 5 / 10

/-- `extractWords(text)` of the generator: lowercase, replace `[^\w\s'-]`
by a space, split on whitespace, keep tokens of length ≥ 2. -/
def extractWords (text : String) : List String :=
  let cleaned := String.mk ((strLower text).data.map (fun c => if keptChar c then c else ' '))
  (wordsOf cleaned).filter (fun w => 2 ≤ strLength w)

/-- Stable insertion: place `x` before the first element `y` with
`le x y`; used to model JavaScript's stable `Array.sort`. -/
def insertSorted (le : α → α → Bool) (x : α) : List α → List α
  | [] => [x]
  | y :: ys => if le x y then x :: y :: ys else y :: insertSorted le x ys

/-- Stable sort by insertion.  For a total comparator this produces the
sorted-and-stable permutation, which is exactly what JavaScript's
`Array.prototype.sort` guarantees. -/
def stableSort (le : α → α → Bool) : List α → List α
  | [] => []
  | x :: xs => insertSorted le x (stableSort le xs)

/-- `sep.join` of JavaScript arrays. -/
def joinSep (sep : String) : List String → String
  | [] => ""
  | [w] => w
  | w :: ws => w ++ sep ++ joinSep sep ws

/-- `searchByWord(word)`: non-`decay` pairs containing the lowercased
word, ordered by strength descending (stable w.r.t. stored order). -/
def searchByWord (st : SysState) (word : String) : List PairRec :=
  let normalized := strLower word
  stableSort (fun a b => b.strength ≤ a.strength)
    (st.pairs.filter (fun p =>
      (p.token_a = normalized ∨ p.token_b = normalized) ∧ p.tier ≠ Tier.decay))

/-- `getTopPairs({limit})` (no tier filter): non-`decay` pairs by strength
descending, first `limit`. -/
def getTopPairs (st : SysState) (limit : ℕ) : List PairRec :=
  (stableSort (fun a b => b.strength ≤ a.strength)
    (st.pairs.filter (fun p => p.tier ≠ Tier.decay))).take limit

/-- `getTokensByCategory(category, limit)`: token stats of the category,
by `total_occurrences` descending, first `limit`. -/
def getTokensByCategory (st : SysState) (category : Cat) (limit : ℕ) : List TokenStat :=
  (stableSort (fun a b => b.total_occurrences ≤ a.total_occurrences)
    (st.tokenStats.filter (fun t => t.category = category))).take limit

/-- Count of pairs currently in a tier (`getMemoryStats` tier counts). -/
def tierCount (st : SysState) (tier : Tier) : ℕ :=
  (st.pairs.filter (fun p => p.tier = tier)).length

/-- Whether `sub` is an initial segment of `s` (character lists). -/
def charsHasInit : List Char → List Char → Bool
  | [], _ => true
  | _ :: _, [] => false
  | a :: as, b :: bs => a = b && charsHasInit as bs

/-- Whether `sub` occurs contiguously in `s` (character lists). -/
def charsHasSub (sub : List Char) : List Char → Bool
  | [] => sub.isEmpty
  | c :: rest => charsHasInit sub (c :: rest) || charsHasSub sub rest

/-- JavaScript `s.includes(sub)`. -/
def strIncludes (s sub : String) : Bool := charsHasSub sub.data s.data

/-- An edge of the word graph (`{word, weight, category}`). -/
structure Edge where
  word : String
  weight : ℚ
  category : Cat
deriving DecidableEq, Repr

/-- A node of the word graph (`{edges, category}`). -/
structure GNode where
  edges : List Edge
  category : Cat
deriving DecidableEq, Repr

/-- The word graph: a JavaScript `Map` in insertion order. -/
abbrev WordGraph := List (String × GNode)

/-- `graph.has(w)`. -/
def graphHas (g : WordGraph) (w : String) : Bool := g.any (fun e => e.1 = w)

/-- `graph.get(w)`. -/
def graphGet? (g : WordGraph) (w : String) : Option GNode :=
  (g.find? (fun e => e.1 = w)).map (fun e => e.2)

/-- Append an edge to the node stored under `w`. -/
def graphPushEdge (g : WordGraph) (w : String) (e : Edge) : WordGraph :=
  g.map (fun wn => if wn.1 = w then (wn.1, { wn.2 with edges := wn.2.edges ++ [e] }) else wn)

/-- Current category of a token as the generator's batch fetch sees it
(`categoryMap.get(t) || 'unclassified'`). -/
def dbCategory (st : SysState) (w : String) : Cat :=
  match getTokenStat? st w with
  | some s => s.category
  | none => .unclassified

/-- `buildWordGraph(pairs)`: skip falsy tokens and pairs below the
strength threshold, create nodes annotated with current categories, add
the pair as an edge in both directions, and finally sort every node's
edges by weight descending. -/
def buildWordGraph (pairsIn : List PairRec) (st : SysState) : WordGraph :=
  let addPair := fun (g : WordGraph) (p : PairRec) =>
    if p.token_a = "" ∨ p.token_b = "" then g
    else if p.strength < GEN_strengthThreshold then g
    else
      let catA := dbCategory st p.token_a
      let catB := dbCategory st p.token_b
      let g := if graphHas g p.token_a then g else g ++ [(p.token_a, ⟨[], catA⟩)]
      let g := if graphHas g p.token_b then g else g ++ [(p.token_b, ⟨[], catB⟩)]
      let g := graphPushEdge g p.token_a ⟨p.token_b, p.strength, catB⟩
      graphPushEdge g p.token_b ⟨p.token_a, p.strength, catA⟩
  let g := pairsIn.foldl addPair []
  g.map (fun wn =>
    (wn.1, { wn.2 with edges := stableSort (fun a b => b.weight ≤ a.weight) wn.2.edges }))

/-- The scoring loop of `selectNextWord`: each available edge consumes one
random value; a preferred-category transition multiplies the weight by
1.5. -/
def scoreEdgesLoop (preferred : List Cat) : List Edge → List ℚ → List (Edge × ℚ) × List ℚ
  | [], rand => ([], rand)
  | e :: es, rand =>
    let pr := popRand rand
    let score0 := e.weight * (if preferred.contains e.category then 3 / 2 else 1)
    let score := score0 * (1 + pr.1 * GEN_randomnessFactor)
    let rest := scoreEdgesLoop preferred es pr.2
    ((e, score) :: rest.1, rest.2)

/-- `selectNextWord(edges, currentCategory, visited, lastCategory)`:
filter out visited words, score with the category boost and randomness,
sort by score descending, then pick index 0 with probability 0.7, else
index 1 with probability 0.8, else index 2 (clamped to the list).  The
source's `currentCategory` parameter is unused there and omitted here. -/
def selectNextWord (edges : List Edge) (visited : List String) (lastCategory : Cat)
    (rand : List ℚ) : Option Edge × List ℚ :=
  let available := edges.filter (fun e => ¬ visited.contains e.word)
  if available.isEmpty then (none, rand)
  else
    let preferred := categoryTransitions lastCategory
    let scoredR := scoreEdgesLoop preferred available rand
    let scored := stableSort (fun a b => b.2 ≤ a.2) scoredR.1
    let r1 := popRand scoredR.2
    if r1.1 < 7 / 10 then ((scored.head?).map (fun se => se.1), r1.2)
    else
      let r2 := popRand r1.2
      let idx := if r2.1 < 8 / 10 then min 1 (scored.length - 1) else min 2 (scored.length - 1)
      ((scored.get? idx).map (fun se => se.1), r2.2)

/-- `findAlternativeStart(graph, excludeWord, keywords, visited, retrySet)`:
first keyword that is in the graph, unvisited, not retried and has edges;
else the unvisited stable node of highest degree; else the unvisited node
of highest degree. -/
def findAlternativeStart (g : WordGraph) (excludeWord : String) (keywords : List String)
    (visited : List String) (retrySet : List String) : Option String :=
  let kwHit := keywords.find? (fun k =>
    (!(k = excludeWord : Bool)) && graphHas g k && !(visited.contains k) &&
      !(retrySet.contains k) &&
      (match graphGet? g k with
       | some nd => !nd.edges.isEmpty
       | none => false))
  match kwHit with
  | some k => some k
  | none =>
    let excluded := fun (w : String) =>
      w = excludeWord ∨ visited.contains w ∨ retrySet.contains w
    let p2 := g.foldl (fun (acc : Option String × ℕ) wn =>
      if excluded wn.1 then acc
      else if wn.2.category = Cat.stable ∧ acc.2 < wn.2.edges.length
      then (some wn.1, wn.2.edges.length) else acc) (none, 0)
    match p2.1 with
    | some w => some w
    | none =>
      let p3 := g.foldl (fun (acc : Option String × ℕ) wn =>
        if excluded wn.1 then acc
        else if acc.2 < wn.2.edges.length then (some wn.1, wn.2.edges.length) else acc)
        (none, 0)
      p3.1

/-- The keyword-scoring loop of `findBestStartWord`: one random value per
keyword present in the graph. -/
def scoreKeywordsLoop (g : WordGraph) : List String → List ℚ → List (String × ℚ) × List ℚ
  | [], rand => ([], rand)
  | k :: ks, rand =>
    let node := (graphGet? g k).getD ⟨[], .unclassified⟩
    let categoryWeight := startingWeight node.category
    let connectionScore := min 1 ((node.edges.length : ℚ) / 10)
    let r := popRand rand
    let score := categoryWeight * (1 + connectionScore) * (1 + r.1 * (3 / 10))
    let rest := scoreKeywordsLoop g ks r.2
    ((k, score) :: rest.1, rest.2)

/-- `findBestStartWord(keywords, graph)`: keywords present in the graph
are scored (category weight × connectivity × randomness) and the best one
returned; otherwise the stable node of highest degree; otherwise the node
of highest degree (the second and third scans share their accumulators in
the source); otherwise the graph's first key. -/
def findBestStartWord (keywords : List String) (g : WordGraph) (rand : List ℚ) :
    Option String × List ℚ :=
  let keywordsInGraph := keywords.filter (fun k => graphHas g k)
  if ¬ keywordsInGraph.isEmpty then
    let scoredR := scoreKeywordsLoop g keywordsInGraph rand
    let scored := stableSort (fun a b => b.2 ≤ a.2) scoredR.1
    ((scored.head?).map (fun se => se.1), scoredR.2)
  else
    let p2 := g.foldl (fun (acc : Option String × ℕ) wn =>
      if wn.2.category = Cat.stable ∧ acc.2 < wn.2.edges.length
      then (some wn.1, wn.2.edges.length) else acc) (none, 0)
    match p2.1 with
    | some w => (some w, rand)
    | none =>
      let p3 := g.foldl (fun (acc : Option String × ℕ) wn =>
        if acc.2 < wn.2.edges.length then (some wn.1, wn.2.edges.length) else acc) p2
      match p3.1 with
      | some w => (some w, rand)
      | none => ((g.head?).map (fun wn => wn.1), rand)

/-- The mutable state of the `walkGraph` while-loop. -/
structure WalkSt where
  path : List String
  visited : List String
  current : String
  lastCategory : Cat
  retried : Bool
  retrySet : List String
  rand : List ℚ
deriving Repr

/-- The dead-end recovery taken when the current node is missing or has no
edges (`!node || node.edges.length === 0`): only while not retried and the
path is still below `minWords`; the recovery token joins the retry set and
must be unvisited; `retried` stays as it was.  `none` means the loop
breaks. -/
def edgelessRecovery (g : WordGraph) (keywords : List String) (st : WalkSt) :
    Option WalkSt :=
  if ¬ st.retried ∧ st.path.length < GEN_minWords then
    match findAlternativeStart g st.current keywords st.visited st.retrySet with
    | some alt =>
      if ¬ st.visited.contains alt then
        some { path := st.path ++ [alt]
               visited := st.visited ++ [alt]
               current := alt
               lastCategory :=
                 (match graphGet? g alt with
                  | some nd => nd.category
                  | none => .unclassified)
               retried := st.retried
               retrySet := st.retrySet ++ [alt]
               rand := st.rand }
      else none
    | none => none
  else none

/-- The dead-end recovery taken when no valid next edge was picked
(`!next || next.weight < strengthThreshold`): like `edgelessRecovery` but
it sets `retried` and keeps the random stream left by `selectNextWord`. -/
def noNextRecovery (g : WordGraph) (keywords : List String) (st : WalkSt)
    (randAfter : List ℚ) : Option WalkSt :=
  if ¬ st.retried ∧ st.path.length < GEN_minWords then
    match findAlternativeStart g st.current keywords st.visited st.retrySet with
    | some alt =>
      if ¬ st.visited.contains alt then
        some { path := st.path ++ [alt]
               visited := st.visited ++ [alt]
               current := alt
               lastCategory :=
                 (match graphGet? g alt with
                  | some nd => nd.category
                  | none => .unclassified)
               retried := true
               retrySet := st.retrySet ++ [alt]
               rand := randAfter }
      else none
    | none => none
  else none

/-- The while-loop of `walkGraph`, with the loop guard
`path.length < maxLength` carried as fuel `maxLength − path.length`
(every continuing iteration pushes exactly one word onto the path, so the
fuel version is the exact loop).  The source's single
`!next || next.weight < strengthThreshold` test appears as the `none` case
plus the below-threshold case, with the same recovery either way. -/
def walkLoop (g : WordGraph) (keywords : List String) : ℕ → WalkSt → List String × List ℚ
  | 0, st => (st.path, st.rand)
  | fuel + 1, st =>
    match graphGet? g st.current with
    | none =>
      match edgelessRecovery g keywords st with
      | some st' => walkLoop g keywords fuel st'
      | none => (st.path, st.rand)
    | some node =>
      if node.edges.isEmpty then
        match edgelessRecovery g keywords st with
        | some st' => walkLoop g keywords fuel st'
        | none => (st.path, st.rand)
      else
        let sel := selectNextWord node.edges st.visited st.lastCategory st.rand
        match sel.1 with
        | none =>
          match noNextRecovery g keywords st sel.2 with
          | some st' => walkLoop g keywords fuel st'
          | none => (st.path, sel.2)
        | some next =>
          if next.weight < GEN_strengthThreshold then
            match noNextRecovery g keywords st sel.2 with
            | some st' => walkLoop g keywords fuel st'
            | none => (st.path, sel.2)
          else
            walkLoop g keywords fuel
              { path := st.path ++ [next.word]
                visited := st.visited ++ [next.word]
                current := next.word
                lastCategory := next.category
                retried := st.retried
                retrySet := st.retrySet
                rand := sel.2 }

/-- The recursive fallback call of `walkGraph` (with `retried = true`,
which can no longer recurse). -/
def walkGraphRetried (g : WordGraph) (startWord : String) (maxLength : ℕ)
    (keywords : List String) (retrySet : List String) (rand : List ℚ) :
    List String × List ℚ :=
  match graphGet? g startWord with
  | some node =>
    walkLoop g keywords (maxLength - 1)
      { path := [startWord], visited := [startWord], current := startWord,
        lastCategory := node.category, retried := true, retrySet := retrySet, rand := rand }
  | none => ([startWord], rand)

/-- `walkGraph(graph, startWord, maxLength, keywords)`: if the start word
is missing from the graph, recover at most once through
`findAlternativeStart` (tracking the recovery token in the retry set);
otherwise run the walk loop from a one-word path. -/
def walkGraph (g : WordGraph) (startWord : String) (maxLength : ℕ)
    (keywords : List String) (rand : List ℚ) : List String × List ℚ :=
  match graphGet? g startWord with
  | some node =>
    walkLoop g keywords (maxLength - 1)
      { path := [startWord], visited := [startWord], current := startWord,
        lastCategory := node.category, retried := false, retrySet := [], rand := rand }
  | none =>
    if ¬ keywords.isEmpty then
      match findAlternativeStart g startWord keywords [startWord] [] with
      | some alt =>
        if alt ≠ startWord ∧ ¬ ([startWord].contains alt) then
          walkGraphRetried g alt maxLength keywords [alt] rand
        else ([startWord], rand)
      | none => ([startWord], rand)
    else ([startWord], rand)

/-! ## Emergent chains (`getEmergentChains`, stage G1) -/

/-- The word a pair leads to from `currentWord`
(`pair.token_a === currentWord ? pair.token_b : pair.token_a`). -/
def chainNextWord (currentWord : String) (p : PairRec) : String :=
  if p.token_a = currentWord then p.token_b else p.token_a

/-- The recursive `buildChain` of `getEmergentChains`.  The source's
`visited` set is always exactly the set of words on the current chain
(every `add` is undone by a matching `delete`), so the model checks chain
membership.  The recursion depth guard `chain.length >= maxLength` is
carried as fuel `maxLength − chain.length`, and the
`for (const pair of pairs.slice(0, 5))` loop — at most five iterations —
is unrolled so that the function is structurally recursive on the fuel. -/
def buildChain (st : SysState) : ℕ → String → List String → List (List String) →
    List (List String)
  | 0, _, chain, chains => chains ++ [chain]
  | fuel + 1, currentWord, chain, chains =>
    let ps := (searchByWord st currentWord).take 5
    let chains1 :=
      match ps.get? 0 with
      | some p =>
        if chain.contains (chainNextWord currentWord p) then chains
        else buildChain st fuel (chainNextWord currentWord p)
          (chain ++ [chainNextWord currentWord p]) chains
      | none => chains
    let chains2 :=
      match ps.get? 1 with
      | some p =>
        if chain.contains (chainNextWord currentWord p) then chains1
        else buildChain st fuel (chainNextWord currentWord p)
          (chain ++ [chainNextWord currentWord p]) chains1
      | none => chains1
    let chains3 :=
      match ps.get? 2 with
      | some p =>
        if chain.contains (chainNextWord currentWord p) then chains2
        else buildChain st fuel (chainNextWord currentWord p)
          (chain ++ [chainNextWord currentWord p]) chains2
      | none => chains2
    let chains4 :=
      match ps.get? 3 with
      | some p =>
        if chain.contains (chainNextWord currentWord p) then chains3
        else buildChain st fuel (chainNextWord currentWord p)
          (chain ++ [chainNextWord currentWord p]) chains3
      | none => chains3
    let chains5 :=
      match ps.get? 4 with
      | some p =>
        if chain.contains (chainNextWord currentWord p) then chains4
        else buildChain st fuel (chainNextWord currentWord p)
          (chain ++ [chainNextWord currentWord p]) chains4
      | none => chains4
    if 2 ≤ chain.length ∧
        ¬ chains5.any (fun c => joinSep "_" c = joinSep "_" chain) then
      chains5 ++ [chain]
    else chains5

/-- `getEmergentChains(startWord, maxLength)`. -/
def getEmergentChains (st : SysState) (startWord : String) (maxLength : ℕ) :
    List (List String) :=
  buildChain st (maxLength - 1) startWord [startWord] []

/-- A candidate phrase of stage G1 (`{words, strength}`). -/
structure Phrase where
  words : List String
  strength : ℚ
deriving DecidableEq, Repr

/-- `discoverEmergentPhrases(keywords)`: chains of length ≥ 2 from the
first five keywords, weighted `1 / length`, best three. -/
def discoverEmergentPhrases (st : SysState) (keywords : List String) : List Phrase :=
  let phrases := ((keywords.take 5).map (fun kw =>
    (getEmergentChains st kw 5).filterMap (fun chain =>
      if 2 ≤ chain.length then some (Phrase.mk chain (1 / (chain.length : ℚ)))
      else none))).flatten
  (stableSort (fun a b => b.strength ≤ a.strength) phrases).take 3

/-- Set-insert of all the given words (`usedWords.add` over a phrase). -/
def addUnique (used : List String) (ws : List String) : List String :=
  ws.foldl (fun u w => if u.contains w then u else u ++ [w]) used

/-- The fragment-assembly loop of generation method 1: skip phrases whose
overlap with the used-word set exceeds 50%, stop once the used-word set
reaches `maxWords`. -/
def assembleFragments : List Phrase → List String → List String → List String
  | [], _, frags => frags
  | ph :: rest, used, frags =>
    let overlap := (ph.words.filter (fun w => used.contains w)).length
    if (ph.words.length : ℚ) * (5 / 10) < (overlap : ℚ) then
      assembleFragments rest used frags
    else
      let frags1 := frags ++ [joinSep " " ph.words]
      let used1 := addUnique used ph.words
      if GEN_maxWords ≤ used1.length then frags1
      else assembleFragments rest used1 frags1

/-- Generation method 1 (emergent phrase discovery).  `none` means the
stage did not assign a response. -/
def emergentStage (st : SysState) (keywords : List String) : Option String :=
  let phrases := discoverEmergentPhrases st keywords
  if phrases.isEmpty then none
  else
    let frags := assembleFragments phrases [] []
    if frags.isEmpty then none else some (joinSep " " frags)

/-! ## Graph-walk stage (G2) -/

/-- Deduplicate pairs by `pattern_key`, keeping first occurrences (the
`seen` set of `generateResponse`). -/
def dedupByPatternKey : List PairRec → List String → List PairRec
  | [], _ => []
  | p :: rest, seen =>
    if seen.contains p.pattern_key then dedupByPatternKey rest seen
    else p :: dedupByPatternKey rest (seen ++ [p.pattern_key])

/-- Generation method 2 (graph walking): collect keyword pairs and the
global top 100, deduplicate, build the word graph, choose a start word and
walk.  The stage assigns a response only when the walk's path has at least
`minWords` tokens; `none` otherwise. -/
def graphWalkStage (st : SysState) (keywords : List String) (rand : List ℚ) :
    Option (List String) × List ℚ :=
  let relevantPairs :=
    ((keywords.take 10).map (fun k => searchByWord st k)).flatten ++ getTopPairs st 100
  let uniquePairs := dedupByPatternKey relevantPairs []
  if uniquePairs.isEmpty then (none, rand)
  else
    let graph := buildWordGraph uniquePairs st
    if graph.isEmpty then (none, rand)
    else
      let sw := findBestStartWord keywords graph rand
      match sw.1 with
      | none => (none, sw.2)
      | some startWord =>
        let walk := walkGraph graph startWord GEN_maxWords keywords sw.2
        if GEN_minWords ≤ walk.1.length then (some walk.1, walk.2)
        else (none, walk.2)

/-! ## Category-composition stage (G3) and raw-pair stage (G4) -/

/-- The endpoint of a pair that is not the base token. -/
def pairOther (base : String) (p : PairRec) : String :=
  if p.token_a = base then p.token_b else p.token_a

/-- Generation method 3 (category-based composition): pick a base among
the top five stable tokens (preferring keyword overlap), then assemble
`[modifier?] base [modifier?] [structural?] [transition?]` from the base's
pairs, with the source's three random gates (30% skip modifier, 20% insert
structural, 30% reverse modifier order).  `none` when no stable token
exists. -/
def categoryCompositionStage (st : SysState) (keywords : List String) (rand : List ℚ) :
    Option String × List ℚ :=
  let stableTokens := getTokensByCategory st Cat.stable 5
  match stableTokens.head? with
  | none => (none, rand)
  | some firstStable =>
    let relevantStable := stableTokens.filter (fun t =>
      keywords.any (fun k => strIncludes t.token k || strIncludes k t.token))
    let baseToken := (relevantStable.head?).getD firstStable
    let base := baseToken.token
    let pairsFound := searchByWord st base
    let modifierPairs := pairsFound.filter (fun p =>
      dbCategory st (pairOther base p) = Cat.modifier)
    let r1 := popRand rand
    let skipModifier := r1.1 < 3 / 10
    let modifierWord :=
      if ¬ skipModifier then (modifierPairs.head?).map (pairOther base) else none
    let transitionPairs := pairsFound.filter (fun p =>
      dbCategory st (pairOther base p) = Cat.transition)
    let transitionWord := (transitionPairs.head?).map (pairOther base)
    let r2 := popRand r1.2
    let structuralWord :=
      if r2.1 < 2 / 10 then
        ((pairsFound.filter (fun p =>
          dbCategory st (pairOther base p) = Cat.structural)).head?).map (pairOther base)
      else none
    let r3 := popRand r2.2
    let reverseModifierOrder := r3.1 < 3 / 10
    let frags : List String :=
      (match modifierWord with
       | some m => if reverseModifierOrder then [] else [m]
       | none => []) ++
      [base] ++
      (match modifierWord with
       | some m => if reverseModifierOrder then [m] else []
       | none => []) ++
      (match structuralWord, transitionWord with
       | some s2, some _ => [s2]
       | _, _ => []) ++
      (match transitionWord with
       | some t => [t]
       | none => [])
    (some (joinSep " " frags), r3.2)

/-- Generation method 4 (raw-pair fallback): up to three of the top five
pairs (keyword-relevant first), rendered `"a b a b a b"`.  `none` when the
memory holds no non-`decay` pair. -/
def rawPairStage (st : SysState) (keywords : List String) : Option String :=
  let topPairs := getTopPairs st 5
  if topPairs.isEmpty then none
  else
    let relevantPairs := topPairs.filter (fun p =>
      keywords.any (fun k =>
        strIncludes p.token_a k || strIncludes p.token_b k ||
          strIncludes k p.token_a || strIncludes k p.token_b))
    let usePairs := if ¬ relevantPairs.isEmpty then relevantPairs else topPairs
    some (joinSep " " ((usePairs.take 3).map (fun p => p.token_a ++ " " ++ p.token_b)))

/-! ## Postprocessing and `generateResponse` -/

/-- `response.split(' ').length` — the generator's word count. -/
def wordCount (s : String) : ℕ := (splitOnSpace s).length

/-- `.replace(/\s+/g, ' ').trim()`. -/
def collapseWhitespace (s : String) : String :=
  joinSep " " (wordsOf s)

/-- The duplicate-consecutive-word filter
`words.filter((w, i) => i === 0 || w !== words[i-1])`; each word is
compared to its predecessor in the original array. -/
def dedupRest (prev : String) : List String → List String
  | [] => []
  | x :: xs => if x = prev then dedupRest x xs else x :: dedupRest x xs

/-- Drop words equal to their immediate predecessor. -/
def dedupConsecutive : List String → List String
  | [] => []
  | w :: ws => w :: dedupRest w ws

/-- `.trim()` on a character list. -/
def trimChars (cs : List Char) : List Char :=
  ((cs.dropWhile Char.isWhitespace).reverse.dropWhile Char.isWhitespace).reverse

/-- `lastIndexOf(' ')` on a character list (`none` for −1). -/
def lastIndexOfSpace (cs : List Char) : Option ℕ :=
  ((List.range cs.length).filter (fun i => cs.getD i 'x' = ' ')).getLast?

/-- The final cleanup of `generateResponse`: lowercase, collapse
whitespace, drop duplicate consecutive words, truncate to `maxLength`
characters preferring the last space after 70% of the limit. -/
def cleanupResponse (resp : String) (maxLength : ℕ) : String :=
  let r := collapseWhitespace (strLower resp)
  let r := joinSep " " (dedupConsecutive (splitOnSpace r))
  if maxLength < strLength r then
    let t := trimChars (r.data.take maxLength)
    match lastIndexOfSpace t with
    | some lastSpace =>
      if (maxLength : ℚ) * (7 / 10) < (lastSpace : ℚ) then String.mk (t.take lastSpace)
      else String.mk t
    | none => String.mk t
  else r

/-- The gate run before methods 2 and 3:
`!response || response.split(' ').length < minWords`. -/
def needsMoreWords (r : String) : Bool := r = "" || wordCount r < GEN_minWords

/-- `generateResponse(userMessage, {maxLength})`: return `"..."` on empty
memory; otherwise try emergent phrases, then the graph walk, then category
composition (both reattempted only while the response has fewer than
`minWords` words), then the raw-pair fallback (reattempted below 2 words),
and postprocess.  An empty outcome collapses to `"..."`. -/
def generateResponse (userMessage : String) (st : SysState) (maxLength : ℕ)
    (rand : List ℚ) : String :=
  let totalPairs := tierCount st .short + tierCount st .medium + tierCount st .long
  if totalPairs = 0 then "..."
  else
    let keywords := extractWords userMessage
    let response1 := match emergentStage st keywords with
      | some s => s
      | none => ""
    let step2 :=
      if needsMoreWords response1 then
        match graphWalkStage st keywords rand with
        | (some path, rand2) => (joinSep " " path, rand2)
        | (none, rand2) => (response1, rand2)
      else (response1, rand)
    let step3 :=
      if needsMoreWords step2.1 then
        match categoryCompositionStage st keywords step2.2 with
        | (some s, rand3) => (s, rand3)
        | (none, rand3) => (step2.1, rand3)
      else step2
    let response4 :=
      if step3.1 = "" || wordCount step3.1 < 2 then
        match rawPairStage st keywords with
        | some s => s
        | none => step3.1
      else step3.1
    if response4 = "" then "..."
    else
      let final := cleanupResponse response4 maxLength
      if final = "" then "..." else final

/-! ## Concrete states used to evaluate the definitions -/

/-- A pair record driven into the `decay` tier by five decay events
(`0.02 × 0.85⁵ ≈ 0.0089 < 0.01` on the fifth). -/
def decayedPairExample : PairRec :=
  runPairEvents "hello" "world" .unclassified .unclassified 0
    [.decayTick 50, .decayTick 100, .decayTick 150, .decayTick 200, .decayTick 250]

/-- The inertia run fed the constant candidate `transition` from a settled
`stable` state. -/
def inertiaWitnessState (k : ℕ) : InertiaState :=
  (inertiaStep Cat.transition)^[k]
    { category := Cat.stable, pending_category := none, pending_count := 0 }

/-- A memory holding exactly one short-tier pair `hello_world` of strength
`0.02` and no token statistics. -/
def oneWordPairMemory : SysState :=
  { counter := 3
    tokenStats := []
    positions := []
    pairs := [{ pattern_key := "hello_world", token_a := "hello", token_b := "world",
                frequency := 1, strength := 1 / 50,
                category_pattern := "unclassified->unclassified",
                reinforcement_count := 1, decay_count := 0, tier := .short,
                decay_at_message := 53, last_seen_message_index := 3 }]
    globalStats := { total_contexts_seen := 1, total_adj_windows := 1,
                     max_positional_variance := 1, total_tokens_seen := 1 }
    purgatory := [] }

/-- A memory whose pair graph is the path `aa — bb — cc`. -/
def threeNodeMemory : SysState :=
  { counter := 9
    tokenStats := []
    positions := []
    pairs := [{ pattern_key := "aa_bb", token_a := "aa", token_b := "bb",
                frequency := 1, strength := 1 / 2, category_pattern := "x",
                reinforcement_count := 1, decay_count := 0, tier := .medium,
                decay_at_message := 300, last_seen_message_index := 3 },
              { pattern_key := "bb_cc", token_a := "bb", token_b := "cc",
                frequency := 1, strength := 2 / 5, category_pattern := "x",
                reinforcement_count := 1, decay_count := 0, tier := .medium,
                decay_at_message := 300, last_seen_message_index := 4 }]
    globalStats := { total_contexts_seen := 1, total_adj_windows := 1,
                     max_positional_variance := 1, total_tokens_seen := 1 }
    purgatory := [] }

/-- An arbitrary small store used to exercise `processMessage`. -/
def smallStore : SysState :=
  { counter := 7
    tokenStats := [freshTokenStat "sun"]
    positions := []
    pairs := []
    globalStats := { total_contexts_seen := 2, total_adj_windows := 2,
                     max_positional_variance := 1, total_tokens_seen := 4 }
    purgatory := [] }

/-- The empty store: no rows, global stats initialised `{1, 1, 1, 1}`,
counter 0. -/
def initialStore : SysState :=
  { counter := 0
    tokenStats := []
    positions := []
    pairs := []
    globalStats := { total_contexts_seen := 1, total_adj_windows := 1,
                     max_positional_variance := 1, total_tokens_seen := 1 }
    purgatory := [] }

/-- Run a sequence of messages `(text, messageId, userId)` through
`processMessage`. -/
def runMessages (msgs : List (String × String × Option String)) (st : SysState) :
    SysState :=
  msgs.foldl (fun s msg => (processMessage msg.1 msg.2.1 msg.2.2 s).2) st

/-- The store after processing `"good morning"` once from empty. -/
def s1Store : SysState :=
  runMessages [("good morning", "m1", some "u1")] initialStore

/-- The single pair of `s1Store`. -/
def s1Pair : PairRec :=
  s1Store.pairs.getD 0 (freshPair "xx" "yy" Cat.unclassified Cat.unclassified 0)

/-! ## Invariant predicates -/

/-- Invariant I1: the tier is the strength-derived tier, or the pair is
retired in the `decay` tier (which only happens below `DECAY_MIN`). -/
def tierConsistent (p : PairRec) : Prop :=
  p.tier = getTierForScore p.strength ∨ (p.tier = Tier.decay ∧ p.strength < DECAY_MIN)

/-- Invariant I3: strength within `[0, 1]`. -/
def strengthInRange (p : PairRec) : Prop :=
  0 ≤ p.strength ∧ p.strength ≤ 1

/-- Every stored pair satisfies I1 and I3. -/
def pairsInvariant (st : SysState) : Prop :=
  ∀ p ∈ st.pairs, tierConsistent p ∧ strengthInRange p

end Aria

/-! # Verified properties -/

namespace Aria

/-! ## Pair-machine lemmas (towards C1, C2, C5, C6) -/

theorem promotionModifier_pos (c : Cat) : 0 < promotionModifier c := by
  cases c <;> decide

theorem promotionModifier_le (c : Cat) : promotionModifier c ≤ 3 / 2 := by
  cases c <;> decide

theorem decayRateFor_nonneg (t : Tier) : 0 ≤ decayRateFor t := by
  cases t <;> decide

theorem decayRateFor_le_one (t : Tier) : decayRateFor t ≤ 1 := by
  cases t <;> decide

theorem tierConsistent_fresh (a b : String) (ca cb : Cat) (m : ℕ) :
    tierConsistent (freshPair a b ca cb m) :=
  Or.inl rfl

theorem tierConsistent_reinforce (p : PairRec) (ca cb : Cat) (m : ℕ) :
    tierConsistent (reinforcePair p ca cb m) :=
  Or.inl rfl

theorem tierConsistent_decayStep (p : PairRec) (m : ℕ) :
    tierConsistent (decayPairStep p m) := by
  simp only [decayPairStep, tierConsistent]
  split
  · right
    exact ⟨rfl, by assumption⟩
  · left; rfl

theorem tierConsistent_event (e : PairEvent) (p : PairRec) (hp : tierConsistent p) :
    tierConsistent (applyPairEvent e p) := by
  cases e with
  | reinforce ca cb m => exact tierConsistent_reinforce p ca cb m
  | decayTick m =>
    simp only [applyPairEvent]
    split
    · exact tierConsistent_decayStep p m
    · exact hp

theorem tierConsistent_foldl (es : List PairEvent) :
    ∀ (p : PairRec), tierConsistent p →
      tierConsistent (es.foldl (fun p e => applyPairEvent e p) p) := by
  induction es with
  | nil => intro p hp; exact hp
  | cons e rest ih => intro p hp; exact ih _ (tierConsistent_event e p hp)

theorem strengthInRange_fresh (a b : String) (ca cb : Cat) (m : ℕ) :
    strengthInRange (freshPair a b ca cb m) := by
  constructor
  · show (0 : ℚ) ≤ REINFORCEMENT_BASE
    decide
  · show REINFORCEMENT_BASE ≤ (1 : ℚ)
    decide

theorem strengthInRange_reinforce (p : PairRec) (ca cb : Cat) (m : ℕ)
    (hp : strengthInRange p) : strengthInRange (reinforcePair p ca cb m) := by
  obtain ⟨h0, _⟩ := hp
  have hmod : 0 < max (promotionModifier ca) (promotionModifier cb) :=
    lt_max_of_lt_left (promotionModifier_pos ca)
  have hadd : 0 ≤ REINFORCEMENT_BASE * max (promotionModifier ca) (promotionModifier cb) := by
    have : (0 : ℚ) ≤ REINFORCEMENT_BASE := by decide
    exact mul_nonneg this (le_of_lt hmod)
  constructor
  · show 0 ≤ min REINFORCEMENT_MAX (p.strength + _)
    exact le_min (by decide) (by linarith)
  · show min REINFORCEMENT_MAX (p.strength + _) ≤ 1
    exact le_trans (min_le_left _ _) (by decide)

theorem strengthInRange_decayStep (p : PairRec) (m : ℕ) (hp : strengthInRange p) :
    strengthInRange (decayPairStep p m) := by
  obtain ⟨h0, h1⟩ := hp
  have hr0 : 0 ≤ 1 - decayRateFor p.tier := by
    have := decayRateFor_le_one p.tier; linarith
  have hr1 : 1 - decayRateFor p.tier ≤ 1 := by
    have := decayRateFor_nonneg p.tier; linarith
  have hlow : 0 ≤ p.strength * (1 - decayRateFor p.tier) := mul_nonneg h0 hr0
  have hhigh : p.strength * (1 - decayRateFor p.tier) ≤ 1 := by
    nlinarith
  simp only [decayPairStep, strengthInRange]
  split
  · exact ⟨hlow, hhigh⟩
  · exact ⟨hlow, hhigh⟩

theorem strengthInRange_event (e : PairEvent) (p : PairRec) (hp : strengthInRange p) :
    strengthInRange (applyPairEvent e p) := by
  cases e with
  | reinforce ca cb m => exact strengthInRange_reinforce p ca cb m hp
  | decayTick m =>
    simp only [applyPairEvent]
    split
    · exact strengthInRange_decayStep p m hp
    · exact hp

theorem strengthInRange_foldl (es : List PairEvent) :
    ∀ (p : PairRec), strengthInRange p →
      strengthInRange (es.foldl (fun p e => applyPairEvent e p) p) := by
  induction es with
  | nil => intro p hp; exact hp
  | cons e rest ih => intro p hp; exact ih _ (strengthInRange_event e p hp)

theorem getTierForScore_cases (s : ℚ) :
    (s < SHORT_MAX ∧ getTierForScore s = Tier.short) ∨
    (SHORT_MAX ≤ s ∧ s < MEDIUM_MAX ∧ getTierForScore s = Tier.medium) ∨
    (MEDIUM_MAX ≤ s ∧ getTierForScore s = Tier.long) := by
  unfold getTierForScore
  split_ifs with h1 h2
  · right; right; exact ⟨h1, rfl⟩
  · right; left
    refine ⟨h2, ?_, rfl⟩
    exact lt_of_not_le h1
  · left
    exact ⟨lt_of_not_le h2, rfl⟩

/-! ## The pair invariants hold across whole message ticks -/

theorem getOrCreateTokenStats_pairs (st : SysState) (token : String) :
    (getOrCreateTokenStats st token).2.pairs = st.pairs := by
  unfold getOrCreateTokenStats
  split <;> rfl

theorem pairsInvariant_congr (s s' : SysState) (heq : s'.pairs = s.pairs)
    (h : pairsInvariant s) : pairsInvariant s' := by
  intro p hp
  exact h p (heq ▸ hp)

theorem foldl_pairs_eq {α : Type} (f : SysState → α → SysState)
    (hf : ∀ s x, (f s x).pairs = s.pairs) (l : List α) :
    ∀ s : SysState, (l.foldl f s).pairs = s.pairs := by
  induction l with
  | nil => intro s; rfl
  | cons x xs ih =>
    intro s
    rw [List.foldl_cons, ih, hf]

theorem foldl_pairs_eq2 {α β : Type} (f : β × SysState → α → β × SysState)
    (hf : ∀ acc x, ((f acc x).2).pairs = acc.2.pairs) (l : List α) :
    ∀ acc, ((l.foldl f acc).2).pairs = acc.2.pairs := by
  induction l with
  | nil => intro acc; rfl
  | cons x xs ih =>
    intro acc
    rw [List.foldl_cons, ih, hf]

theorem foldl_preserves_inv2 {α β : Type} (f : β × SysState → α → β × SysState)
    (P : SysState → Prop) (hf : ∀ acc x, P acc.2 → P (f acc x).2) (l : List α) :
    ∀ acc, P acc.2 → P ((l.foldl f acc).2) := by
  induction l with
  | nil => intro acc h; exact h
  | cons x xs ih =>
    intro acc h
    rw [List.foldl_cons]
    exact ih _ (hf acc x h)

theorem processTokenStatistics_pairs (tokens : List String) (messageIndex : ℕ)
    (isStandalone : Bool) (st : SysState) :
    (processTokenStatistics tokens messageIndex isStandalone st).2.pairs = st.pairs := by
  simp only [processTokenStatistics]
  rw [foldl_pairs_eq]
  · apply foldl_pairs_eq2
    intro acc t
    exact getOrCreateTokenStats_pairs acc.2 t
  · intro s x
    rfl

theorem calculateScoresAndCategories_pairs (tokens : List String) (st : SysState) :
    (calculateScoresAndCategories tokens st).2.pairs = st.pairs := by
  simp only [calculateScoresAndCategories]
  apply foldl_pairs_eq2
  intro acc t
  exact getOrCreateTokenStats_pairs acc.2 t

theorem processPairAt_invariant (tokens : List String) (messageIndex : ℕ)
    (acc : PairCounts × SysState) (i : ℕ) (h : pairsInvariant acc.2) :
    pairsInvariant (processPairAt tokens messageIndex acc i).2 := by
  simp only [processPairAt]
  split
  · exact h
  · have hpairs : (getOrCreateTokenStats
        (getOrCreateTokenStats acc.2 (tokens.getD i "")).2
        (tokens.getD (i + 1) "")).2.pairs = acc.2.pairs := by
      rw [getOrCreateTokenStats_pairs, getOrCreateTokenStats_pairs]
    split
    · rename_i existing heq
      intro q hq
      simp only [putPair] at hq
      rcases List.mem_map.mp hq with ⟨r, hr, hqr⟩
      have hex : existing ∈ acc.2.pairs := by
        rw [← hpairs]
        exact List.mem_of_find?_eq_some heq
      have hexInv := h existing hex
      have hrInv := h r (by rw [← hpairs]; exact hr)
      rw [← hqr]
      split
      · exact ⟨tierConsistent_reinforce _ _ _ _,
          strengthInRange_reinforce _ _ _ _ hexInv.2⟩
      · exact hrInv
    · intro q hq
      simp only [] at hq
      rcases List.mem_append.mp hq with hq | hq
      · exact h q (by rw [← hpairs]; exact hq)
      · rcases List.mem_singleton.mp hq with rfl
        exact ⟨tierConsistent_fresh _ _ _ _ _, strengthInRange_fresh _ _ _ _ _⟩

theorem processWordPairs_invariant (tokens : List String) (messageIndex : ℕ)
    (st : SysState) (h : pairsInvariant st) :
    pairsInvariant (processWordPairs tokens messageIndex st).2 := by
  simp only [processWordPairs]
  split
  · exact h
  · exact foldl_preserves_inv2 _ pairsInvariant
      (fun acc i => processPairAt_invariant tokens messageIndex acc i) _ _ h

theorem processDecay_invariant (messageIndex : ℕ) (st : SysState)
    (h : pairsInvariant st) : pairsInvariant (processDecay messageIndex st).2 := by
  intro q hq
  simp only [processDecay] at hq
  rcases List.mem_map.mp hq with ⟨r, hr, hqr⟩
  obtain ⟨h1, h2⟩ := h r hr
  rw [← hqr]
  exact ⟨tierConsistent_event _ r h1, strengthInRange_event _ r h2⟩

theorem processMessage_pairsInvariant (messageText messageId : String)
    (userId : Option String) (st : SysState) (h : pairsInvariant st) :
    pairsInvariant (processMessage messageText messageId userId st).2 := by
  simp only [processMessage]
  split
  · exact h
  · split
    · exact h
    · apply processDecay_invariant
      apply processWordPairs_invariant
      apply pairsInvariant_congr _ _ (calculateScoresAndCategories_pairs _ _)
      apply pairsInvariant_congr _ _ (processTokenStatistics_pairs _ _ _ _)
      exact h

theorem runMessages_pairsInvariant (msgs : List (String × String × Option String)) :
    ∀ st : SysState, pairsInvariant st → pairsInvariant (runMessages msgs st) := by
  induction msgs with
  | nil => intro st h; exact h
  | cons msg rest ih =>
    intro st h
    simp only [runMessages, List.foldl_cons]
    exact ih _ (processMessage_pairsInvariant _ _ _ _ h)

theorem initialStore_pairsInvariant : pairsInvariant initialStore := by
  intro p hp
  exact absurd hp (List.not_mem_nil p)

/-- C1: after any sequence of complete message ticks from the empty store
(each tick performing its creations, reinforcements and decay pass), every
stored pair's tier is exactly the one derived from its strength — `short`
below 0.30, `medium` in [0.30, 0.80), `long` at or above 0.80 — unless the
pair has been retired to the `decay` tier (which only happens with
strength below `DECAY_MIN`). -/
theorem C1_tier_derived_from_strength (msgs : List (String × String × Option String))
    (p : PairRec) (hp : p ∈ (runMessages msgs initialStore).pairs) :
    (p.strength < SHORT_MAX ∧ p.tier = Tier.short) ∨
    (SHORT_MAX ≤ p.strength ∧ p.strength < MEDIUM_MAX ∧ p.tier = Tier.medium) ∨
    (MEDIUM_MAX ≤ p.strength ∧ p.tier = Tier.long) ∨
    (p.tier = Tier.decay ∧ p.strength < DECAY_MIN) := by
  have h := runMessages_pairsInvariant msgs initialStore initialStore_pairsInvariant p hp
  rcases h.1 with h1 | h1
  · rcases getTierForScore_cases p.strength with ⟨ha, hb⟩ | ⟨ha, hb, hc⟩ | ⟨ha, hb⟩
    · exact Or.inl ⟨ha, h1.trans hb⟩
    · exact Or.inr (Or.inl ⟨ha, hb, h1.trans hc⟩)
    · exact Or.inr (Or.inr (Or.inl ⟨ha, h1.trans hb⟩))
  · exact Or.inr (Or.inr (Or.inr h1))

/-- Witness for C1: the pair created by processing `"good morning"` once
(strength 0.02, tier `short`). -/
theorem C1_witness :
    (s1Pair.strength < SHORT_MAX ∧ s1Pair.tier = Tier.short) ∨
    (SHORT_MAX ≤ s1Pair.strength ∧ s1Pair.strength < MEDIUM_MAX ∧
      s1Pair.tier = Tier.medium) ∨
    (MEDIUM_MAX ≤ s1Pair.strength ∧ s1Pair.tier = Tier.long) ∨
    (s1Pair.tier = Tier.decay ∧ s1Pair.strength < DECAY_MIN) :=
  C1_tier_derived_from_strength [("good morning", "m1", some "u1")] s1Pair (by decide)

/-- C2: under every interleaving of pair creation, reinforcement and
decay, a pair's strength stays in the closed interval `[0, 1]`. -/
theorem C2_strength_stays_in_unit_interval (tokenA tokenB : String) (catA catB : Cat)
    (createdAt : ℕ) (es : List PairEvent) :
    0 ≤ (runPairEvents tokenA tokenB catA catB createdAt es).strength ∧
      (runPairEvents tokenA tokenB catA catB createdAt es).strength ≤ 1 :=
  strengthInRange_foldl es _ (strengthInRange_fresh tokenA tokenB catA catB createdAt)

/-- C5 counterexample: a pair decayed into the `decay` tier
(`0.02 × 0.85⁵ < 0.01`) and then seen again adjacently is reinforced in
place: the resulting record has tier `short` but its strength is the old
strength plus `0.02 × modifier`, not the fresh-pair value `0.02` the claim
asserts. -/
theorem C5_counterexample :
    decayedPairExample.tier = Tier.decay ∧
    (applyPairEvent (.reinforce .unclassified .unclassified 260) decayedPairExample).strength ≠
      REINFORCEMENT_BASE ∧
    (applyPairEvent (.reinforce .unclassified .unclassified 260) decayedPairExample).tier =
      Tier.short := by
  refine ⟨?_, ?_, ?_⟩ <;> decide

/-- C5 (amended): a new adjacent occurrence of a decay-tier pair's tokens
reinforces the decayed record in place — its strength becomes the old
strength plus `0.02 × modifier` and its tier is rederived (hence `short`),
rather than being overwritten by a fresh `strength = 0.02` record; and the
decay engine never touches a decay-tier pair, so no other operation
re-surfaces it. -/
theorem C5_amended_decay_pair_resurface (p : PairRec) (catA catB : Cat) (m mDecay : ℕ)
    (htier : p.tier = Tier.decay) (h0 : 0 ≤ p.strength) (hlt : p.strength < DECAY_MIN) :
    (reinforcePair p catA catB m).strength =
      p.strength + REINFORCEMENT_BASE * max (promotionModifier catA) (promotionModifier catB) ∧
    (reinforcePair p catA catB m).tier = Tier.short ∧
    applyPairEvent (.decayTick mDecay) p = p := by
  have hmodle : max (promotionModifier catA) (promotionModifier catB) ≤ 3 / 2 :=
    max_le (promotionModifier_le catA) (promotionModifier_le catB)
  have hmodpos : 0 < max (promotionModifier catA) (promotionModifier catB) :=
    lt_max_of_lt_left (promotionModifier_pos catA)
  have haddle : REINFORCEMENT_BASE * max (promotionModifier catA) (promotionModifier catB)
      ≤ 3 / 100 := by
    have h := mul_le_mul_of_nonneg_left hmodle (by decide : (0 : ℚ) ≤ REINFORCEMENT_BASE)
    have : REINFORCEMENT_BASE * (3 / 2) = 3 / 100 := by decide
    linarith
  have haddpos : 0 ≤ REINFORCEMENT_BASE * max (promotionModifier catA) (promotionModifier catB) :=
    mul_nonneg (by decide) (le_of_lt hmodpos)
  have hltq : p.strength < 1 / 100 := by
    have : DECAY_MIN = 1 / 100 := rfl
    linarith
  have hsum : p.strength + REINFORCEMENT_BASE * max (promotionModifier catA)
      (promotionModifier catB) < 4 / 100 := by linarith
  have hmin : min REINFORCEMENT_MAX (p.strength + REINFORCEMENT_BASE *
      max (promotionModifier catA) (promotionModifier catB)) =
      p.strength + REINFORCEMENT_BASE * max (promotionModifier catA) (promotionModifier catB) := by
    apply min_eq_right
    have : REINFORCEMENT_MAX = 1 := rfl
    linarith
  refine ⟨hmin, ?_, ?_⟩
  · show getTierForScore (min REINFORCEMENT_MAX (p.strength + REINFORCEMENT_BASE *
      max (promotionModifier catA) (promotionModifier catB))) = Tier.short
    rw [hmin]
    unfold getTierForScore
    rw [if_neg, if_neg]
    · show ¬ SHORT_MAX ≤ _
      have : SHORT_MAX = 30 / 100 := rfl
      linarith
    · show ¬ MEDIUM_MAX ≤ _
      have : MEDIUM_MAX = 80 / 100 := rfl
      linarith
  · simp only [applyPairEvent]
    rw [if_neg]
    intro hcond
    exact hcond.1 htier

/-- C6 counterexample: for the freshly created (hence short-tier,
strength `0.02`) pair, one reinforcement with both categories
`unclassified` followed by one short-interval decay yields strength
`(0.02 + 0.02 × 0.8) × 0.85 = 0.0306`, not the claimed
`(0.02 × 0.8) × 0.85 = 0.0136`: the claim drops the pair's strength
before the reinforcement. -/
theorem C6_counterexample :
    (freshPair "aa" "bb" Cat.unclassified Cat.unclassified 0).tier = Tier.short ∧
    (applyPairEvent (.decayTick 51)
        (reinforcePair (freshPair "aa" "bb" Cat.unclassified Cat.unclassified 0)
          Cat.unclassified Cat.unclassified 1)).strength ≠
      (REINFORCEMENT_BASE *
          max (promotionModifier Cat.unclassified) (promotionModifier Cat.unclassified)) *
        (1 - 15 / 100) := by
  constructor
  · rfl
  · decide

/-- C6 (amended): reinforcing a pair of strength `s₀` once and then
immediately aging it past one `short` interval leaves its strength at
`(s₀ + 0.02 × modifier) × (1 − 0.15)` — the round trip keeps the prior
strength `s₀` as a summand — provided the reinforced strength stays below
0.30 so that the pair stays in the `short` tier (rate 0.15).  Exact in ℚ,
so "within floating-point tolerance" holds a fortiori. -/
theorem C6_amended_reinforce_decay_roundtrip (p : PairRec) (catA catB : Cat) (m mDecay : ℕ)
    (hshort : p.tier = Tier.short) (h0 : 0 ≤ p.strength)
    (hlt : p.strength + REINFORCEMENT_BASE *
      max (promotionModifier catA) (promotionModifier catB) < SHORT_MAX)
    (hdue : (reinforcePair p catA catB m).decay_at_message ≤ mDecay) :
    (applyPairEvent (.decayTick mDecay) (reinforcePair p catA catB m)).strength =
      (p.strength + REINFORCEMENT_BASE *
        max (promotionModifier catA) (promotionModifier catB)) * (1 - 15 / 100) := by
  have hsm : SHORT_MAX = 30 / 100 := rfl
  have hmin : min REINFORCEMENT_MAX (p.strength + REINFORCEMENT_BASE *
      max (promotionModifier catA) (promotionModifier catB)) =
      p.strength + REINFORCEMENT_BASE * max (promotionModifier catA) (promotionModifier catB) := by
    apply min_eq_right
    have : REINFORCEMENT_MAX = 1 := rfl
    linarith
  have hstr : (reinforcePair p catA catB m).strength =
      p.strength + REINFORCEMENT_BASE * max (promotionModifier catA) (promotionModifier catB) :=
    hmin
  have htier : (reinforcePair p catA catB m).tier = Tier.short := by
    show getTierForScore (min REINFORCEMENT_MAX (p.strength + REINFORCEMENT_BASE *
      max (promotionModifier catA) (promotionModifier catB))) = Tier.short
    rw [hmin]
    unfold getTierForScore
    rw [if_neg, if_neg]
    · show ¬ SHORT_MAX ≤ _
      linarith
    · show ¬ MEDIUM_MAX ≤ _
      have : MEDIUM_MAX = 80 / 100 := rfl
      linarith
  have hne : (reinforcePair p catA catB m).tier ≠ Tier.decay := by
    rw [htier]; decide
  simp only [applyPairEvent]
  rw [if_pos ⟨hne, hdue⟩]
  simp only [decayPairStep]
  split
  · show (reinforcePair p catA catB m).strength *
      (1 - decayRateFor (reinforcePair p catA catB m).tier) = _
    rw [hstr, htier]
    exact rfl
  · show (reinforcePair p catA catB m).strength *
      (1 - decayRateFor (reinforcePair p catA catB m).tier) = _
    rw [hstr, htier]
    exact rfl

/-- Witness for the amended C5 at the concrete decayed pair. -/
theorem C5_amended_witness :
    (reinforcePair decayedPairExample Cat.unclassified Cat.unclassified 260).strength =
      decayedPairExample.strength + REINFORCEMENT_BASE *
        max (promotionModifier Cat.unclassified) (promotionModifier Cat.unclassified) ∧
    (reinforcePair decayedPairExample Cat.unclassified Cat.unclassified 260).tier =
      Tier.short ∧
    applyPairEvent (.decayTick 300) decayedPairExample = decayedPairExample :=
  C5_amended_decay_pair_resurface decayedPairExample Cat.unclassified Cat.unclassified 260 300
    (by decide) (by decide) (by decide)

/-- Witness for the amended C6 at the concrete fresh pair. -/
theorem C6_amended_witness :
    (applyPairEvent (.decayTick 51)
        (reinforcePair (freshPair "cc" "dd" Cat.unclassified Cat.unclassified 0)
          Cat.unclassified Cat.unclassified 1)).strength =
      ((freshPair "cc" "dd" Cat.unclassified Cat.unclassified 0).strength +
        REINFORCEMENT_BASE *
          max (promotionModifier Cat.unclassified) (promotionModifier Cat.unclassified)) *
        (1 - 15 / 100) :=
  C6_amended_reinforce_decay_roundtrip
    (freshPair "cc" "dd" Cat.unclassified Cat.unclassified 0)
    Cat.unclassified Cat.unclassified 1 51 (by decide) (by decide) (by decide) (by decide)

/-! ## Category assignment (C4) -/

theorem max4_choice (a b c d : ℚ) :
    max (max (max a b) c) d = a ∨ max (max (max a b) c) d = b ∨
    max (max (max a b) c) d = c ∨ max (max (max a b) c) d = d := by
  rcases max_choice (max (max a b) c) d with h | h
  · rcases max_choice (max a b) c with h2 | h2
    · rcases max_choice a b with h3 | h3
      · left; rw [h, h2, h3]
      · right; left; rw [h, h2, h3]
    · right; right; left; rw [h, h2]
  · right; right; right; exact h

/-- C4: the category candidate computed by the scorer (`assignCategory`)
is exactly the specification's rule: `unclassified` below two occurrences
or when the maximum of the four scores is at most 0.15, otherwise the
score name owning the maximum with ties broken stable > transition >
modifier > structural (modifier named from the dependency score). -/
theorem C4_assignCategory_matches_spec (s : TokenStat) :
    assignCategory s = assignCategorySpec s := by
  simp only [assignCategory, assignCategorySpec, MIN_OCCURRENCES_FOR_CATEGORY,
    CATEGORY_THRESHOLD]
  by_cases h0 : s.total_occurrences < 2
  · rw [if_pos h0, if_pos h0]
  · rw [if_neg h0, if_neg h0]
    set M := max (max (max s.stability_score s.transition_score) s.dependency_score)
      s.structural_score with hM
    by_cases h1 : M ≤ 15 / 100
    · rw [if_pos h1, if_pos h1]
    · rw [if_neg h1, if_neg h1]
      have hgt : (15 / 100 : ℚ) < M := lt_of_not_le h1
      by_cases ha : s.stability_score = M
      · rw [if_pos ⟨ha, by rw [ha]; exact hgt⟩, if_pos ha]
      · rw [if_neg (fun h => ha h.1), if_neg ha]
        by_cases hb : s.transition_score = M
        · rw [if_pos ⟨hb, by rw [hb]; exact hgt⟩, if_pos hb]
        · rw [if_neg (fun h => hb h.1), if_neg hb]
          by_cases hc : s.dependency_score = M
          · rw [if_pos ⟨hc, by rw [hc]; exact hgt⟩, if_pos hc]
          · rw [if_neg (fun h => hc h.1), if_neg hc]
            have hd : s.structural_score = M := by
              rcases max4_choice s.stability_score s.transition_score s.dependency_score
                s.structural_score with h | h | h | h
              · exact absurd h.symm ha
              · exact absurd h.symm hb
              · exact absurd h.symm hc
              · exact h.symm
            rw [if_pos ⟨hd, by rw [hd]; exact hgt⟩]

/-! ## Invalid messages (C7) -/

/-- C7: `processMessage` called with empty text or a missing user id
returns `processed = false` together with a reason, and leaves the store
(and in particular the message counter) untouched. -/
theorem C7_invalid_message_rejected (messageText messageId : String)
    (userId : Option String) (st : SysState)
    (h : messageText = "" ∨ userId = none) :
    (processMessage messageText messageId userId st).1.processed = false ∧
    (processMessage messageText messageId userId st).1.reason =
      some "Empty message or no user" ∧
    (processMessage messageText messageId userId st).2 = st := by
  have hcond : messageText = "" ∨ jsFalsyStr userId = true := by
    rcases h with h | h
    · exact Or.inl h
    · right; rw [h]; rfl
  simp only [processMessage]
  rw [if_pos hcond]
  exact ⟨rfl, rfl, rfl⟩

/-- Witness for C7 at a concrete store and empty text. -/
theorem C7_witness :
    (processMessage "" "m1" (some "u1") smallStore).1.processed = false ∧
    (processMessage "" "m1" (some "u1") smallStore).1.reason =
      some "Empty message or no user" ∧
    (processMessage "" "m1" (some "u1") smallStore).2 = smallStore :=
  C7_invalid_message_rejected "" "m1" (some "u1") smallStore (Or.inl rfl)

/-! ## Category inertia (C3) -/

theorem inertiaStep_eq_commit (cand : Cat) (s : InertiaState)
    (h1 : ¬ cand = s.category) (h2 : some cand = s.pending_category)
    (h3 : 3 ≤ s.pending_count + 1) :
    inertiaStep cand s =
      { category := cand, pending_category := none, pending_count := 0 } := by
  simp [inertiaStep, h1, h2, h3]

theorem inertiaStep_eq_incr (cand : Cat) (s : InertiaState)
    (h1 : ¬ cand = s.category) (h2 : some cand = s.pending_category)
    (h3 : ¬ 3 ≤ s.pending_count + 1) :
    inertiaStep cand s =
      { category := s.category, pending_category := s.pending_category,
        pending_count := s.pending_count + 1 } := by
  simp [inertiaStep, h1, h2, h3]

theorem inertiaStep_eq_newPending (cand : Cat) (s : InertiaState)
    (h1 : ¬ cand = s.category) (h2 : ¬ some cand = s.pending_category) :
    inertiaStep cand s =
      { category := s.category, pending_category := some cand, pending_count := 1 } := by
  simp [inertiaStep, h1, h2]

theorem inertiaStep_eq_reset (cand : Cat) (s : InertiaState)
    (h1 : cand = s.category) :
    inertiaStep cand s =
      { category := s.category, pending_category := none, pending_count := 0 } := by
  simp [inertiaStep, h1]

theorem inertiaStep_count_le (cand : Cat) (s : InertiaState)
    (h : s.pending_count ≤ 2) : (inertiaStep cand s).pending_count ≤ 2 := by
  simp only [inertiaStep]
  split_ifs with h1 h2 h3
  · exact Nat.zero_le 2
  · show s.pending_count + 1 ≤ 2
    omega
  · show 1 ≤ 2
    omega
  · exact Nat.zero_le 2

theorem inertiaStep_count_le_succ (cand : Cat) (s : InertiaState) :
    (inertiaStep cand s).pending_count ≤ s.pending_count + 1 := by
  simp only [inertiaStep]
  split_ifs with h1 h2 h3
  · exact Nat.zero_le _
  · exact Nat.le_refl _
  · show 1 ≤ s.pending_count + 1
    omega
  · exact Nat.zero_le _

theorem inertiaStep_cat_change (cand : Cat) (s : InertiaState)
    (h : (inertiaStep cand s).category ≠ s.category) :
    cand ≠ s.category ∧ s.pending_category = some cand ∧ 2 ≤ s.pending_count ∧
      (inertiaStep cand s).category = cand := by
  simp only [inertiaStep] at *
  split_ifs at * with h1 h2 h3
  · exact ⟨h1, h2.symm, by omega, rfl⟩
  · exact absurd rfl h
  · exact absurd rfl h
  · exact absurd rfl h

theorem inertiaStep_count_eq_two (cand : Cat) (s : InertiaState)
    (h : (inertiaStep cand s).pending_count = 2) :
    (inertiaStep cand s).pending_category = some cand ∧ s.pending_count = 1 ∧
      s.pending_category = some cand ∧ cand ≠ s.category ∧
      (inertiaStep cand s).category = s.category := by
  by_cases h1 : cand = s.category
  · rw [inertiaStep_eq_reset cand s h1] at h
    simp at h
  · by_cases h2 : some cand = s.pending_category
    · by_cases h3 : 3 ≤ s.pending_count + 1
      · rw [inertiaStep_eq_commit cand s h1 h2 h3] at h
        simp at h
      · rw [inertiaStep_eq_incr cand s h1 h2 h3] at h ⊢
        have hc : s.pending_count + 1 = 2 := h
        exact ⟨h2.symm, by omega, h2.symm, h1, rfl⟩
    · rw [inertiaStep_eq_newPending cand s h1 h2] at h
      simp at h

theorem inertiaStep_count_pos (cand : Cat) (s : InertiaState)
    (h : 1 ≤ (inertiaStep cand s).pending_count) :
    (inertiaStep cand s).pending_category = some cand ∧ cand ≠ s.category ∧
      (inertiaStep cand s).category = s.category := by
  by_cases h1 : cand = s.category
  · rw [inertiaStep_eq_reset cand s h1] at h
    simp at h
  · by_cases h2 : some cand = s.pending_category
    · by_cases h3 : 3 ≤ s.pending_count + 1
      · rw [inertiaStep_eq_commit cand s h1 h2 h3] at h
        simp at h
      · rw [inertiaStep_eq_incr cand s h1 h2 h3] at h ⊢
        exact ⟨h2.symm, h1, rfl⟩
    · rw [inertiaStep_eq_newPending cand s h1 h2] at h ⊢
      exact ⟨rfl, h1, rfl⟩

/-- C3: under the inertia protocol (starting from a settled record,
`pending_count = 0`), a token's current category changes from one tick to
the next only when the same non-current candidate was produced by the
scorer on that tick and on the two preceding ticks; in particular no
change can occur on the first two ticks, so a single winning candidate
never flips the category immediately. -/
theorem C3_category_change_needs_three_wins (s : ℕ → InertiaState) (cand : ℕ → Cat)
    (hstep : ∀ n, s (n + 1) = inertiaStep (cand n) (s n))
    (h0 : (s 0).pending_count = 0) :
    ((s 1).category = (s 0).category ∧ (s 2).category = (s 1).category) ∧
    ∀ n, (s (n + 3)).category ≠ (s (n + 2)).category →
      cand (n + 2) = (s (n + 3)).category ∧
      cand (n + 1) = cand (n + 2) ∧ cand n = cand (n + 2) ∧
      cand (n + 2) ≠ (s (n + 2)).category ∧
      cand (n + 1) ≠ (s (n + 1)).category ∧
      cand n ≠ (s n).category := by
  have hle : ∀ k, (s k).pending_count ≤ 2 := by
    intro k
    induction k with
    | zero => omega
    | succ k ih =>
      rw [hstep k]
      exact inertiaStep_count_le (cand k) (s k) ih
  constructor
  · constructor
    · by_contra h
      rw [hstep 0] at h
      have h2 := (inertiaStep_cat_change _ _ h).2.2.1
      omega
    · by_contra h
      rw [hstep 1] at h
      have h2 := (inertiaStep_cat_change _ _ h).2.2.1
      have h1le : (s 1).pending_count ≤ 1 := by
        rw [hstep 0]
        have := inertiaStep_count_le_succ (cand 0) (s 0)
        omega
      omega
  · intro n hch
    rw [hstep (n + 2)] at hch
    obtain ⟨hne2, hpend2, hcnt2, hcat3⟩ := inertiaStep_cat_change _ _ hch
    have hcnt2' : (inertiaStep (cand (n + 1)) (s (n + 1))).pending_count = 2 := by
      rw [← hstep (n + 1)]
      have := hle (n + 2)
      rw [hstep (n + 1)] at *
      omega
    obtain ⟨hpA, hcntB, hpendB, hneB, hcatB⟩ :=
      inertiaStep_count_eq_two (cand (n + 1)) (s (n + 1)) hcnt2'
    have heq12 : cand (n + 1) = cand (n + 2) := by
      have := hpend2
      rw [hstep (n + 1)] at this
      rw [hpA] at this
      exact Option.some_injective _ this
    have hcntB' : 1 ≤ (inertiaStep (cand n) (s n)).pending_count := by
      rw [← hstep n]
      omega
    obtain ⟨hpC, hneC, hcatC⟩ := inertiaStep_count_pos (cand n) (s n) hcntB'
    have heq01 : cand n = cand (n + 1) := by
      have := hpendB
      rw [hstep n] at this
      rw [hpC] at this
      exact Option.some_injective _ this
    refine ⟨?_, heq12, heq01.trans heq12, ?_, hneB, hneC⟩
    · rw [hstep (n + 2)]
      exact hcat3.symm
    · exact hne2

/-- Witness for C3: a concrete run where the candidate `transition` wins
three consecutive ticks against a current category `stable`, and the
change is confirmed exactly on the third tick. -/
theorem C3_witness :
    (inertiaWitnessState 3).category ≠ (inertiaWitnessState 2).category ∧
    (inertiaWitnessState 3).category = Cat.transition ∧
    (inertiaWitnessState 2).category = Cat.stable := by
  have h := (C3_category_change_needs_three_wins inertiaWitnessState
    (fun _ => Cat.transition)
    (fun n => Function.iterate_succ_apply' (inertiaStep Cat.transition) n _)
    (by decide)).2 0 (by decide)
  exact ⟨by decide, h.1.symm, by decide⟩

/-! ## Graph walk termination and length bound (C9) -/

theorem edgelessRecovery_path (g : WordGraph) (keywords : List String) (st st' : WalkSt)
    (h : edgelessRecovery g keywords st = some st') :
    st'.path.length = st.path.length + 1 := by
  unfold edgelessRecovery at h
  repeat' split at h
  all_goals first
    | (cases h)
    | (injection h with h2; rw [← h2]; simp)
  all_goals simp

theorem noNextRecovery_path (g : WordGraph) (keywords : List String) (st : WalkSt)
    (randAfter : List ℚ) (st' : WalkSt)
    (h : noNextRecovery g keywords st randAfter = some st') :
    st'.path.length = st.path.length + 1 := by
  unfold noNextRecovery at h
  repeat' split at h
  all_goals first
    | (cases h)
    | (injection h with h2; rw [← h2]; simp)
  all_goals simp

theorem walkLoop_path_length (g : WordGraph) (keywords : List String) :
    ∀ (fuel : ℕ) (st : WalkSt),
      (walkLoop g keywords fuel st).1.length ≤ st.path.length + fuel := by
  intro fuel
  induction fuel with
  | zero =>
    intro st
    simp [walkLoop]
  | succ n ih =>
    intro st
    simp only [walkLoop]
    have hrec : ∀ st' : WalkSt, st'.path.length ≤ st.path.length + 1 →
        (walkLoop g keywords n st').1.length ≤ st.path.length + (n + 1) := by
      intro st' h'
      exact le_trans (ih st') (by omega)
    repeat' split
    all_goals try (exact hrec _ (by simp))
    all_goals try (exact hrec _ (le_of_eq (edgelessRecovery_path _ _ _ _ (by assumption))))
    all_goals try (exact hrec _ (le_of_eq (noNextRecovery_path _ _ _ _ _ (by assumption))))
    all_goals simp

/-- C9: for every finite pair graph, start word, keyword list and outcome
of the random choices, the graph walk with dead-end recovery
(`walkGraph`, `findAlternativeStart` and the retry set) terminates — the
walk is a total function whose loop variant `maxWords − path.length`
decreases on every continuing iteration — and its path holds at most
`maxWords = 12` tokens. -/
theorem C9_walkGraph_terminates_bounded (g : WordGraph) (startWord : String)
    (keywords : List String) (rand : List ℚ) :
    (walkGraph g startWord GEN_maxWords keywords rand).1.length ≤ GEN_maxWords := by
  unfold walkGraph walkGraphRetried
  repeat' split
  all_goals try (refine le_trans (walkLoop_path_length g keywords (GEN_maxWords - 1) _) ?_)
  all_goals try simp [GEN_maxWords]
  all_goals omega

/-! ## Start-word selection (C10) -/

theorem mem_insertSorted {α : Type} (le : α → α → Bool) (x : α) (l : List α) (y : α) :
    y ∈ insertSorted le x l ↔ y = x ∨ y ∈ l := by
  induction l with
  | nil => simp [insertSorted]
  | cons a as ih =>
    simp only [insertSorted]
    split
    · simp [List.mem_cons]
    · simp only [List.mem_cons, ih]
      tauto

theorem mem_stableSort {α : Type} (le : α → α → Bool) (l : List α) (y : α) :
    y ∈ stableSort le l ↔ y ∈ l := by
  induction l with
  | nil => simp [stableSort]
  | cons a as ih =>
    simp only [stableSort, mem_insertSorted, List.mem_cons, ih]

theorem length_insertSorted {α : Type} (le : α → α → Bool) (x : α) (l : List α) :
    (insertSorted le x l).length = l.length + 1 := by
  induction l with
  | nil => simp [insertSorted]
  | cons a as ih =>
    simp only [insertSorted]
    split
    · simp
    · simp [ih]

theorem length_stableSort {α : Type} (le : α → α → Bool) (l : List α) :
    (stableSort le l).length = l.length := by
  induction l with
  | nil => rfl
  | cons a as ih => simp [stableSort, length_insertSorted, ih]

theorem scoreKeywordsLoop_map_fst (g : WordGraph) (ks : List String) (rand : List ℚ) :
    ((scoreKeywordsLoop g ks rand).1).map Prod.fst = ks := by
  induction ks generalizing rand with
  | nil => simp [scoreKeywordsLoop]
  | cons k ks ih => simp [scoreKeywordsLoop, ih]

theorem scanFold_mem (g : WordGraph)
    (f : (Option String × ℕ) → (String × GNode) → (Option String × ℕ))
    (hf : ∀ acc wn, (f acc wn).1 = acc.1 ∨ (f acc wn).1 = some wn.1) :
    ∀ (acc : Option String × ℕ) (w : String),
      (g.foldl f acc).1 = some w → acc.1 = some w ∨ graphHas g w = true := by
  induction g with
  | nil =>
    intro acc w h
    exact Or.inl h
  | cons wn rest ih =>
    intro acc w h
    rcases ih (f acc wn) w h with h2 | h2
    · rcases hf acc wn with h3 | h3
      · exact Or.inl (h3 ▸ h2)
      · right
        have hw : wn.1 = w := Option.some_injective _ (h3.symm.trans h2)
        simp [graphHas, List.any_cons, hw]
    · right
      simp only [graphHas, List.any_cons] at h2 ⊢
      simp [h2]

/-- C10: for every non-empty word graph, `findBestStartWord` never comes
back empty: it returns `some` token that is a key of the graph, even when
no keyword is present in the graph and no node is `stable` or has edges,
so the graph-walk stage always has a starting node. -/
theorem C10_findBestStartWord_returns_graph_node (keywords : List String)
    (g : WordGraph) (rand : List ℚ) (hne : g ≠ []) :
    ∃ w, (findBestStartWord keywords g rand).1 = some w ∧ graphHas g w = true := by
  simp only [findBestStartWord]
  split
  · -- some keyword is in the graph
    rename_i hkw
    cases hsort : stableSort (fun a b => b.2 ≤ a.2)
        (scoreKeywordsLoop g (keywords.filter fun k => graphHas g k) rand).1 with
    | nil =>
      exfalso
      have hlen := length_stableSort (fun (a b : String × ℚ) => b.2 ≤ a.2)
        (scoreKeywordsLoop g (keywords.filter fun k => graphHas g k) rand).1
      rw [hsort] at hlen
      have hlen2 := congrArg List.length
        (scoreKeywordsLoop_map_fst g (keywords.filter fun k => graphHas g k) rand)
      rw [List.length_map] at hlen2
      rw [hlen2] at hlen
      have hempty : (keywords.filter fun k => graphHas g k) = [] :=
        List.length_eq_zero.mp hlen.symm
      rw [hempty] at hkw
      simp at hkw
    | cons se rest =>
      refine ⟨se.1, rfl, ?_⟩
      have hmem : se ∈ stableSort (fun a b => b.2 ≤ a.2)
          (scoreKeywordsLoop g (keywords.filter fun k => graphHas g k) rand).1 := by
        rw [hsort]
        exact List.mem_cons_self se rest
      have hmem2 := (mem_stableSort _ _ _).mp hmem
      have hmem3 : se.1 ∈ (keywords.filter fun k => graphHas g k) := by
        rw [← scoreKeywordsLoop_map_fst g (keywords.filter fun k => graphHas g k) rand]
        exact List.mem_map_of_mem Prod.fst hmem2
      exact List.of_mem_filter hmem3
  · -- no keyword in the graph: the shared best-node scans
    have hf2 : ∀ (acc : Option String × ℕ) (wn : String × GNode),
        (if wn.2.category = Cat.stable ∧ acc.2 < wn.2.edges.length
          then ((some wn.1, wn.2.edges.length) : Option String × ℕ) else acc).1 = acc.1 ∨
        (if wn.2.category = Cat.stable ∧ acc.2 < wn.2.edges.length
          then ((some wn.1, wn.2.edges.length) : Option String × ℕ) else acc).1 = some wn.1 := by
      intro acc wn
      split
      · exact Or.inr rfl
      · exact Or.inl rfl
    have hf3 : ∀ (acc : Option String × ℕ) (wn : String × GNode),
        (if acc.2 < wn.2.edges.length
          then ((some wn.1, wn.2.edges.length) : Option String × ℕ) else acc).1 = acc.1 ∨
        (if acc.2 < wn.2.edges.length
          then ((some wn.1, wn.2.edges.length) : Option String × ℕ) else acc).1 = some wn.1 := by
      intro acc wn
      split
      · exact Or.inr rfl
      · exact Or.inl rfl
    split
    · rename_i w heq
      refine ⟨w, rfl, ?_⟩
      rcases scanFold_mem g _ hf2 (none, 0) w heq with h | h
      · cases h
      · exact h
    · rename_i heqNone
      split
      · rename_i w heq
        refine ⟨w, rfl, ?_⟩
        rcases scanFold_mem g _ hf3 _ w heq with h | h
        · rw [heqNone] at h
          cases h
        · exact h
      · cases g with
        | nil => exact absurd rfl hne
        | cons wn rest =>
          refine ⟨wn.1, rfl, ?_⟩
          simp [graphHas, List.any_cons]

/-- Witness for C10 on a one-node graph with no keywords, no stable node
and no edges. -/
theorem C10_witness :
    ∃ w, (findBestStartWord [] [("aa", GNode.mk [] Cat.unclassified)] []).1 = some w ∧
      graphHas [("aa", GNode.mk [] Cat.unclassified)] w = true :=
  C10_findBestStartWord_returns_graph_node [] [("aa", GNode.mk [] Cat.unclassified)] []
    (by decide)

/-! ## Generator word-count gates (C8) -/

/-- C8 counterexample: with a memory holding the single pair
`hello world` (strength 0.02) and the input `"zz"`, the emergent and
graph-walk stages fail, the category stage has no stable token, and the
raw-pair fallback — whose gate runs at 2 words, not `minWords` — returns
the two-word response `"hello world"`, which is not the fallback `"..."`
and is below `minWords = 3`. -/
theorem C8_counterexample :
    generateResponse "zz" oneWordPairMemory 150 [] ≠ "..." ∧
    wordCount (generateResponse "zz" oneWordPairMemory 150 []) < GEN_minWords := by
  have h : generateResponse "zz" oneWordPairMemory 150 [] = "hello world" := by decide
  rw [h]
  constructor
  · decide
  · decide

/-- C8 (amended): it is only the graph-walk stage that accepts exclusively
outputs of at least `minWords = 3` words — whenever `graphWalkStage`
assigns a response path, that path has at least `minWords` tokens; the
category-composition and raw-pair stages are gated at 2 words (and an
under-length earlier response can survive them), so a returned non-`"..."`
response can have fewer than `minWords` words. -/
theorem C8_amended_graph_walk_gate (st : SysState) (keywords : List String)
    (rand randRest : List ℚ) (p : List String)
    (h : graphWalkStage st keywords rand = (some p, randRest)) :
    GEN_minWords ≤ p.length := by
  simp only [graphWalkStage] at h
  repeat' split at h
  all_goals injection h with h1 h2
  all_goals try (cases h1)
  all_goals assumption

/-- Witness for the amended C8: on the path graph `aa — bb — cc` the
graph-walk stage accepts the three-token path `bb aa cc`. -/
theorem C8_witness_graph_walk_gate :
    GEN_minWords ≤ (["bb", "aa", "cc"] : List String).length :=
  C8_amended_graph_walk_gate threeNodeMemory [] [] [] ["bb", "aa", "cc"] (by decide)

end Aria
